import Mathlib

/-!
Shallow embedding of the job-lifecycle orchestrator, emergency fallback
generator and recovery helpers of the AI-image-gen-battle demo client
(src/windows-client/demo_client.py, error_mitigation.py,
emergency_simulator.py), together with proofs settling the claims about
them.  Machine state is passed explicitly; wall-clock instants are `Nat`
parameters; filesystem and PIL effects are captured by explicit
environment records; exceptions escaping a method are an `Option String`
component of its result.
-/

namespace ImageGenBattle

/-! ## Prompt categorization (emergency_simulator.py, lines 50-61 and 154-168) -/

/-- `EmergencyImageGenerator.prompt_categories`: the fixed category/keyword
registry, in its Python dict insertion order. -/
def promptCategories : List (String × List String) :=
  [ ("landscape", ["landscape", "mountain", "ocean", "forest", "nature", "scenic",
      "valley", "sunset", "sunrise"]),
    ("portrait", ["person", "face", "human", "portrait", "character", "man",
      "woman", "child"]),
    ("abstract", ["abstract", "pattern", "geometric", "colorful", "artistic",
      "modern"]),
    ("architecture", ["building", "house", "city", "urban", "structure",
      "architecture", "cityscape"]),
    ("fantasy", ["dragon", "magic", "fantasy", "mythical", "unicorn", "castle",
      "fairy"]),
    ("technology", ["robot", "futuristic", "sci-fi", "cyberpunk", "tech",
      "computer", "ai"]),
    ("animals", ["cat", "dog", "bird", "animal", "wildlife", "pet", "horse",
      "elephant"]),
    ("vehicles", ["car", "truck", "plane", "ship", "vehicle", "motorcycle",
      "train"]),
    ("food", ["food", "meal", "cooking", "restaurant", "kitchen", "delicious"]),
    ("space", ["space", "planet", "star", "galaxy", "astronaut", "cosmos",
      "universe"]) ]

/-- The ten registered category names, in registration order. -/
def categoryNames : List String := promptCategories.map Prod.fst

/-- Python `keyword in prompt_lower`: substring containment, as char lists. -/
def kwIn (kw : String) (promptLower : List Char) : Bool :=
  decide (kw.toList <:+: promptLower)

/-- `prompt.lower()`, as a char list (`str.lower` maps each character). -/
def lowerChars (prompt : String) : List Char :=
  prompt.toList.map Char.toLower

/-- `sum(1 for keyword in keywords if keyword in prompt_lower)`. -/
def catScore (promptLower : List Char) (kws : List String) : Nat :=
  (kws.filter (fun kw => kwIn kw promptLower)).length

/-- The `category_scores` dict of `categorize_prompt`: only categories with a
positive score are inserted, in registration order. -/
def categoryScores (prompt : String) : List (String × Nat) :=
  (promptCategories.map (fun c => (c.1, catScore (lowerChars prompt) c.2))).filter
    (fun x => 0 < x.2)

/-- Python `max(items, key=lambda x: x[1])` starting from `x`: the running
maximum is replaced only on a strictly greater score, so the first maximal
element wins. -/
def maxBySnd (x : String × Nat) : List (String × Nat) → String × Nat
  | [] => x
  | y :: ys => maxBySnd (if y.2 > x.2 then y else x) ys

/-- `EmergencyImageGenerator.categorize_prompt`. -/
def categorizePrompt (prompt : String) : String :=
  match categoryScores prompt with
  | [] => "abstract"
  | x :: xs => (maxBySnd x xs).1

/-- Largest score in a score list (0 when empty): specification-side helper
used to state what `categorize_prompt` picks. -/
def sndMax : List (String × Nat) → Nat
  | [] => 0
  | x :: xs => max x.2 (sndMax xs)

/-- First key of the list carrying score `m`: specification-side helper for
the tie-break order claim. -/
def firstWithScore (m : Nat) : List (String × Nat) → Option String
  | [] => none
  | x :: xs => if x.2 = m then some x.1 else firstWithScore m xs

/-! ## Emergency fallback generator (emergency_simulator.py, lines 154-396) -/

/-- Environment of one `generate_image` call: which asset files exist, and
whether the fallible external operations (asset creation, PIL open, PIL
drawing) succeed.  `pick` resolves `random.choice`. -/
structure GenEnv where
  fsHas : List String
  createOk : Bool
  loadOk : Bool
  fallbackDrawOk : Bool
  pick : Nat
deriving DecidableEq, Repr

/-- `f"emergency_{category}_{variant}_{platform}.png"`. -/
def assetFilename (category : String) (variant : Nat) (platform : String) : String :=
  "emergency_" ++ category ++ "_" ++ toString variant ++ "_" ++ platform ++ ".png"

/-- Every (category × variant) filename, in the scan order of
`ensure_emergency_assets` / `select_emergency_image`. -/
def allAssetFilenames (platform : String) : List String :=
  (categoryNames.map (fun c => [0, 1, 2].map (fun v => assetFilename c v platform))).flatten

/-- `ensure_emergency_assets`: create each missing file;
`create_placeholder_image` swallows its own failures, so on failure the
filesystem is unchanged. -/
def ensureEmergencyAssets (env : GenEnv) (platform : String) : List String :=
  if env.createOk then
    env.fsHas ++ (allAssetFilenames platform).filter (fun f => !(env.fsHas.contains f))
  else env.fsHas

/-- The re-scan for existing assets of `select_emergency_image`. -/
def availableImages (fs : List String) (platform : String) : List String :=
  (allAssetFilenames platform).filter (fun f => fs.contains f)

/-- An image value: a loaded asset, a drawn last-resort fallback, or the
minimal 1x1 image of `create_fallback_image`'s own except branch. -/
inductive ImageRes
  | loaded (path : String)
  | drawn (prompt : String) (w h : Nat)
  | minimal
deriving DecidableEq, Repr

/-- `create_fallback_image`: draws a placeholder; its except branch returns a
minimal 1x1 image instead of raising. -/
def createFallbackImage (env : GenEnv) (prompt : String) (w h : Nat) : ImageRes :=
  if env.fallbackDrawOk then .drawn prompt w h else .minimal

/-- Result of `select_emergency_image`: chosen path plus the filesystem after
any creation it performed. -/
structure SelectResult where
  path : String
  fs : List String
deriving DecidableEq, Repr

/-- `select_emergency_image`: scan, create-and-rescan when empty, random
choice, else the `emergency_abstract_0_{platform}.png` ultimate fallback
(created when possible). -/
def selectEmergencyImage (env : GenEnv) (platform : String) : SelectResult :=
  let avail0 := availableImages env.fsHas platform
  let fs1 := if avail0.isEmpty then ensureEmergencyAssets env platform else env.fsHas
  let avail1 := if avail0.isEmpty then availableImages fs1 platform else avail0
  if avail1.isEmpty then
    let fbName := assetFilename "abstract" 0 platform
    let fs2 := if fs1.contains fbName then fs1
      else if env.createOk then fs1 ++ [fbName] else fs1
    { path := fbName, fs := fs2 }
  else
    { path := avail1.getD (env.pick % avail1.length) "", fs := fs1 }

/-- The final-image step of `generate_image` (lines 341-352): `Image.open`
may raise (modeled by `loadOk`); a missing path goes directly to the drawn
fallback. -/
def loadSelectedImage (env : GenEnv) (path : String) (fs : List String)
    (prompt : String) : Except String ImageRes :=
  if fs.contains path then
    if env.loadOk then .ok (.loaded path) else .error "PIL open failed"
  else .ok (createFallbackImage env prompt 768 768)

/-- The metric entries of `generate_image` that do not depend on wall-clock
floats; the timing entries are recorded as presence flags. -/
structure GenMetrics where
  platform : String
  backend : String
  steps : Nat
  emergencyImageUsed : String
  selectionMethod : String
  imageSource : String
  hasGenerationTime : Bool
  hasMsPerStep : Bool
  hasStepsPerSecond : Bool
deriving DecidableEq, Repr

/-- `EmergencyImageGenerator.generate_image`.  Returns the image, the
metrics, and the `(current_step, total_steps)` arguments of the successive
`progress_callback` invocations.  The only exception-capable steps are
wrapped exactly where the source wraps them in `try`/`except`. -/
def emergencyGenerateImage (env : GenEnv) (platform : String) (prompt : String)
    (stepsArg : Option Nat) : Except String (ImageRes × GenMetrics × List (Nat × Nat)) :=
  let isSnap := platform = "snapdragon"
  let defaultSteps := if isSnap then 4 else 25
  let steps := match stepsArg with
    | none => defaultSteps
    | some 0 => defaultSteps
    | some k => k
  let sel := selectEmergencyImage env platform
  let callbacks := (List.range steps).map (fun i => (i + 1, steps))
  let image := match loadSelectedImage env sel.path sel.fs prompt with
    | .ok img => img
    | .error _ => createFallbackImage env prompt 768 768
  let metrics : GenMetrics :=
    { platform := if isSnap then "snapdragon" else "intel"
      backend := "npu_optimized"
      steps := steps
      emergencyImageUsed := sel.path
      selectionMethod := "random"
      imageSource := if sel.fs.contains sel.path then sel.path else "fallback_generated"
      hasGenerationTime := true
      hasMsPerStep := true
      hasStepsPerSecond := true }
  .ok (image, metrics, callbacks)

/-! ## Job orchestrator (demo_client.py `DemoDisplay`, error_mitigation.py) -/

/-- Job statuses: `'active' | 'completed' | 'error' | 'stopped'`. -/
inductive JStatus
  | active
  | completed
  | error
  | stopped
deriving DecidableEq, Repr

/-- One record of the `self.jobs` dict (demo_client.py lines 625-637 plus the
fields added later: `error`, `elapsed_time`; `metrics` is tracked as a
presence flag). -/
structure Job where
  id : String
  prompt : String
  steps : Nat
  mode : String
  status : JStatus
  startTime : Nat
  endTime : Option Nat
  imageUrl : Option String
  metricsSet : Bool
  currentStep : Nat
  totalSteps : Nat
  errMsg : Option String
  elapsedTime : Option Nat
deriving DecidableEq, Repr

/-- Per-process configuration: `webOnly` is the `EMERGENCY_MODE` env check
(under it the Tk widgets, e.g. `self.status_label`, are `None`);
`lightningModel` is `"lightning" in str(ai_generator.model_path)`;
`modelMissing` is `detect_model_missing()`, the only `critical`-severity
detection, whose recovery always reports failure. -/
structure Config where
  webOnly : Bool
  isSnapdragon : Bool
  lightningModel : Bool
  modelMissing : Bool
deriving DecidableEq, Repr

/-- The mutable fields of `DemoDisplay` that the lifecycle methods touch. -/
structure DemoState where
  demoActive : Bool
  currentStep : Nat
  totalSteps : Nat
  startTime : Option Nat
  endTime : Option Nat
  currentPrompt : String
  currentJobId : Option String
  jobs : List Job
deriving DecidableEq, Repr

/-- `DemoDisplay.__init__`: no job, empty history. -/
def initState : DemoState :=
  { demoActive := false, currentStep := 0, totalSteps := 30, startTime := none,
    endTime := none, currentPrompt := "", currentJobId := none, jobs := [] }

/-- The Socket.IO events the orchestrator emits. -/
inductive Ev
  | jobStarted (jobId prompt : String) (steps : Nat) (mode : String)
  | progress (jobId : String) (currentStep totalSteps : Nat)
  | completed (jobId : String) (imageUrl : Option String) (elapsed : Nat)
      (totalSteps : Nat)
  | errorEv (jobId : String) (msg : String)
deriving DecidableEq, Repr

/-- `jid in self.jobs` / `self.jobs[jid]` lookup. -/
def lookupJob (jobs : List Job) (jid : String) : Option Job :=
  jobs.find? (fun j => j.id = jid)

/-- `self.jobs[jid][...] = ...`: update the record at `jid` in place. -/
def updateJob (jobs : List Job) (jid : String) (f : Job → Job) : List Job :=
  jobs.map (fun j => if j.id = jid then f j else j)

/-- Dict assignment `self.jobs[jid] = record`: replace in place when the key
exists, append otherwise. -/
def upsertJob (jobs : List Job) (j : Job) : List Job :=
  if jobs.any (fun x => x.id = j.id) then
    jobs.map (fun x => if x.id = j.id then j else x)
  else jobs ++ [j]

/-- `job.get('status') in ['completed', 'error', 'stopped']`. -/
def isTerminal : JStatus → Bool
  | .active => false
  | _ => true

/-- `sorted(self.jobs.items(), key=lambda x: x[1].get('start_time', 0))`
(Python's sort is stable, as is `mergeSort`). -/
def sortByStart (jobs : List Job) : List Job :=
  jobs.mergeSort (fun a b => a.startTime ≤ b.startTime)

/-- The deletion loop of `JobRecoveryManager.cleanup_old_jobs`: walk the
sorted snapshot, delete terminal jobs, stop once at most
`max_jobs // 2 = 10` remain. -/
def cleanupLoop : List Job → List Job → List Job
  | [], jobs => jobs
  | j :: rest, jobs =>
    if isTerminal j.status then
      let jobs1 := jobs.filter (fun x => x.id ≠ j.id)
      if jobs1.length ≤ 10 then jobs1 else cleanupLoop rest jobs1
    else cleanupLoop rest jobs

/-- `JobRecoveryManager.cleanup_old_jobs` with the default
`max_jobs = 20`. -/
def cleanupOldJobs (jobs : List Job) : List Job :=
  if jobs.length ≤ 20 then jobs else cleanupLoop (sortByStart jobs) jobs

/-- Result of `DemoDisplay.start_generation`: new state, emitted events, and
the returned job id (`none` is Python's `None`, the rejection result). -/
structure StartResult where
  st : DemoState
  evs : List Ev
  ret : Option String
deriving DecidableEq, Repr

/-- `DemoDisplay.start_generation` (lines 586-668).  Rejects when a demo is
active; rejects when the critical `model_not_found` detection fires, since
its recovery reports failure; otherwise cleans old jobs, installs the new
`active` record and emits `job_started`.  The UI updates are all guarded by
the web-only check, so no branch raises. -/
def startGeneration (cfg : Config) (s : DemoState) (prompt : String) (steps : Nat)
    (mode : String) (jobId : String) (now : Nat) : StartResult :=
  if s.demoActive then ⟨s, [], none⟩
  else if cfg.modelMissing then ⟨s, [], none⟩
  else
    let jobs1 := cleanupOldJobs s.jobs
    let job : Job :=
      { id := jobId, prompt := prompt, steps := steps, mode := mode,
        status := .active, startTime := now, endTime := none, imageUrl := none,
        metricsSet := false, currentStep := 0, totalSteps := steps,
        errMsg := none, elapsedTime := none }
    let s1 : DemoState :=
      { demoActive := true, currentStep := 0, totalSteps := steps,
        startTime := some now, endTime := none, currentPrompt := prompt,
        currentJobId := some jobId, jobs := upsertJob jobs1 job }
    ⟨s1, [.jobStarted jobId prompt steps mode], some jobId⟩

/-- The `AttributeError` raised by calling `.config` on a `None` widget. -/
def attributeErr : String := "AttributeError: NoneType object has no attribute config"

/-- The record mutation of `stop_generation`: status `stopped`, `end_time`
set to the call time. -/
def stopJob (now : Nat) (j : Job) : Job :=
  { j with status := JStatus.stopped, endTime := some now }

/-- The record mutation of the error paths: status `error` plus the
message. -/
def errJob (msg : String) (j : Job) : Job :=
  { j with status := JStatus.error, errMsg := some msg }

/-- `DemoDisplay.stop_generation` (lines 890-899).  Line 893 touches
`self.status_label` without the web-only guard, so in web-only mode the
method raises after clearing `demo_active` but before the job-record
update. -/
def stopGeneration (cfg : Config) (s : DemoState) (now : Nat) :
    DemoState × List Ev × Option String :=
  if cfg.webOnly then ({ s with demoActive := false }, [], some attributeErr)
  else
    match s.currentJobId with
    | some jid =>
      if (lookupJob s.jobs jid).isSome then
        ({ s with demoActive := false, jobs := updateJob s.jobs jid (stopJob now) }, [], none)
      else ({ s with demoActive := false }, [], none)
    | none => ({ s with demoActive := false }, [], none)

/-- `DemoDisplay.generation_error` (lines 869-888).  Line 872 touches
`self.status_label` unguarded: in web-only mode the method raises right after
clearing `demo_active`, before the job-record update and before the `error`
emit. -/
def generationError (cfg : Config) (s : DemoState) (msg : String) :
    DemoState × List Ev × Option String :=
  if cfg.webOnly then ({ s with demoActive := false }, [], some attributeErr)
  else
    match s.currentJobId with
    | some jid =>
      if (lookupJob s.jobs jid).isSome then
        ({ s with demoActive := false, jobs := updateJob s.jobs jid (errJob msg) },
          [.errorEv jid msg], none)
      else ({ s with demoActive := false }, [.errorEv jid msg], none)
    | none => ({ s with demoActive := false }, [], none)

/-- Lines 792-795: elapsed time of the finished generation (0 when a
timestamp is missing). -/
def gcElapsed (s : DemoState) : Nat :=
  match s.endTime, s.startTime with
  | some e, some st => e - st
  | _, _ => 0

/-- Lines 798-801: the completion mutation of the current job record. -/
def gcJob (s : DemoState) (j : Job) : Job :=
  { j with
      status := JStatus.completed
      endTime := s.endTime
      elapsedTime := some (gcElapsed s) }

/-- Lines 797-801 of `generation_complete`: mark the current record
completed when present. -/
def gcMark (s : DemoState) : DemoState :=
  match s.currentJobId with
  | some jid =>
    if (lookupJob s.jobs jid).isSome then { s with jobs := updateJob s.jobs jid (gcJob s) }
    else s
  | none => s

/-- `DemoDisplay.generation_complete` (lines 790-867).  The job record is
marked `completed` first (lines 798-801); line 804 then touches
`self.status_label` unguarded, so in web-only mode the method raises before
`demo_active` is cleared (line 811) and before the `completed` emit. -/
def generationComplete (cfg : Config) (s : DemoState) :
    DemoState × List Ev × Option String :=
  if cfg.webOnly then (gcMark s, [], some attributeErr)
  else
    match s.currentJobId with
    | some jid =>
      ({ gcMark s with demoActive := false },
        [.completed jid ((lookupJob (gcMark s).jobs jid).bind Job.imageUrl) (gcElapsed s)
          s.totalSteps], none)
    | none => ({ gcMark s with demoActive := false }, [], none)

/-- The record mutation of the progress callback. -/
def pcJob (cs : Nat) (j : Job) : Job := { j with currentStep := cs }

/-- The `progress_callback` closure of `run_generation` (lines 681-706):
discarded when `demo_active` is off; otherwise records the step and emits a
`progress` event. -/
def progressCallback (s : DemoState) (cs ts : Nat) : DemoState × List Ev :=
  if s.demoActive then
    match s.currentJobId with
    | some jid =>
      if (lookupJob s.jobs jid).isSome then
        ({ s with currentStep := cs, jobs := updateJob s.jobs jid (pcJob cs) },
          [.progress jid cs ts])
      else ({ s with currentStep := cs }, [.progress jid cs ts])
    | none => ({ s with currentStep := cs }, [])
  else (s, [])

/-- Apply the callback for each listed `current_step` value in order. -/
def runCallbacksFrom (s : DemoState) (ts : Nat) : List Nat → DemoState × List Ev
  | [] => (s, [])
  | c :: rest =>
    let r1 := progressCallback s c ts
    let r2 := runCallbacksFrom r1.1 ts rest
    (r2.1, r1.2 ++ r2.2)

/-- Lines 765-767 of `run_generation`'s `except` handler: mark the current
job failed. -/
def setJobError (s : DemoState) (msg : String) : DemoState :=
  match s.currentJobId with
  | some jid =>
    if (lookupJob s.jobs jid).isSome then { s with jobs := updateJob s.jobs jid (errJob msg) }
    else s
  | none => s

/-- Outcome of the backend `generate_image` call as seen by
`run_generation`: it either returns after invoking the progress callback once
per step, or raises `msg` after `callbacksDone` callbacks. -/
inductive BackendOutcome
  | ok
  | fail (msg : String) (callbacksDone : Nat)
deriving DecidableEq, Repr

/-- The record mutation of lines 744-752: artifact reference and metrics. -/
def imgJob (jid : String) (j : Job) : Job :=
  { j with imageUrl := some ("/static/generated/" ++ jid ++ ".png"), metricsSet := true }

/-- Lines 744-752 of `run_generation`: persist the artifact reference and
metrics on the current job record (not guarded by `demo_active`). -/
def storeImage (s : DemoState) : DemoState :=
  match s.currentJobId with
  | some jid => { s with jobs := updateJob s.jobs jid (imgJob jid) }
  | none => s

/-- The `except` handler of `run_generation` (lines 763-772): mark the job
failed (lines 765-767), then `generation_error`. -/
def runFailTail (cfg : Config) (s1 : DemoState) (msg : String) :
    DemoState × List Ev × Option String :=
  generationError cfg (setJobError s1 msg) msg

/-- Lines 754-772 of `run_generation` after a successful backend call: when
the demo is still active, set `end_time` and run `generation_complete`; an
exception escaping it is caught at line 763 and routed through the failure
bookkeeping. -/
def runOkTail (cfg : Config) (s2 : DemoState) (nowEnd : Nat) :
    DemoState × List Ev × Option String :=
  if s2.demoActive then
    match generationComplete cfg { s2 with endTime := some nowEnd } with
    | (sc, evs, none) => (sc, evs, none)
    | (sc, evs, some e) =>
      ((runFailTail cfg sc e).1, evs ++ (runFailTail cfg sc e).2.1,
        (runFailTail cfg sc e).2.2)
  else (s2, [], none)

/-- Lines 708-721 of `run_generation`: the step count actually used, chosen
from the platform alone (the job's requested steps are not consulted). -/
def platformSteps (cfg : Config) : Nat :=
  if cfg.isSnapdragon then (if cfg.lightningModel then 4 else 30) else 25

/-- The `current_step` argument sequence `1, 2, …, n` of the backend's
progress callbacks. -/
def stepList (n : Nat) : List Nat := (List.range n).map (· + 1)

/-- `DemoDisplay.run_generation` (lines 670-772).  The step count is
recomputed from the platform (lines 708-721), ignoring the job's requested
steps.  On success the artifact and metrics are written to the job record
(lines 744-752) regardless of `demo_active`, and `generation_complete` runs
only while the demo is still active.  Exceptions — including the web-only
`AttributeError` escaping `generation_complete` — are caught by the handler
at line 763, which marks the job failed and calls `generation_error`; an
exception escaping that handler leaves the method. -/
def runGeneration (cfg : Config) (s : DemoState) (outcome : BackendOutcome)
    (nowEnd : Nat) : DemoState × List Ev × Option String :=
  match outcome with
  | .ok =>
    let r1 := runCallbacksFrom { s with totalSteps := platformSteps cfg }
      (platformSteps cfg) (stepList (platformSteps cfg))
    let r2 := runOkTail cfg (storeImage r1.1) nowEnd
    (r2.1, r1.2 ++ r2.2.1, r2.2.2)
  | .fail msg k =>
    let r1 := runCallbacksFrom { s with totalSteps := platformSteps cfg }
      (platformSteps cfg) (stepList (min k (platformSteps cfg)))
    let r2 := runFailTail cfg r1.1 msg
    (r2.1, r1.2 ++ r2.2.1, r2.2.2)

/-- The job-specific view of `DemoDisplay.get_status` (lines 901-923),
including Python's truthiness checks on the timestamps. -/
structure JobView where
  jobId : String
  status : JStatus
  prompt : String
  currentStep : Nat
  totalSteps : Nat
  elapsedTime : Nat
  imageUrl : Option String
  metricsSet : Bool
  errMsg : Option String
deriving DecidableEq, Repr

/-- Render one job record as `get_status(job_id)` does. -/
def getStatusJob (j : Job) (now : Nat) : JobView :=
  let elapsed : Nat :=
    if j.startTime ≠ 0 then
      if j.endTime.getD 0 ≠ 0 then j.endTime.getD 0 - j.startTime
      else now - j.startTime
    else 0
  { jobId := j.id, status := j.status, prompt := j.prompt,
    currentStep := j.currentStep, totalSteps := j.totalSteps,
    elapsedTime := elapsed, imageUrl := j.imageUrl, metricsSet := j.metricsSet,
    errMsg := j.errMsg }

/-- `get_status(job_id)` for a job id found in history (on a miss the code
falls through to the global status snapshot, returned here as `none`). -/
def getStatusFor (s : DemoState) (jid : String) (now : Nat) : Option JobView :=
  (lookupJob s.jobs jid).map (fun j => getStatusJob j now)

/-- `JobRecoveryManager.orphan_timeout` (300 seconds). -/
def orphanTimeout : Nat := 300

/-- The mutation applied to an orphaned job (error_mitigation.py lines
465-468). -/
def reapJob (now : Nat) (j : Job) : Job :=
  { j with
      status := JStatus.error
      errMsg := some "Job timeout - marked as failed"
      endTime := some now }

/-- `JobRecoveryManager.recover_orphaned_jobs` (error_mitigation.py lines
448-471): every job `active` for strictly more than the timeout is marked
`error` with the timeout message.  Nothing else — in particular
`demo_active` — changes. -/
def recoverOrphanedJobs (s : DemoState) (now : Nat) : DemoState :=
  { s with jobs := s.jobs.map (fun j =>
      if j.status = JStatus.active ∧ now - j.startTime > orphanTimeout then reapJob now j
      else j) }

/-- External/asynchronous happenings that drive the orchestrator state. -/
inductive Act
  | start (prompt : String) (steps : Nat) (mode : String) (jobId : String) (now : Nat)
  | stop (now : Nat)
  | run (outcome : BackendOutcome) (nowEnd : Nat)
  | reap (now : Nat)
deriving DecidableEq, Repr

/-- State after one act (exceptions kill only the calling thread; the shared
state keeps the mutations already applied). -/
def stepAct (cfg : Config) (s : DemoState) : Act → DemoState
  | .start p st m jid now => (startGeneration cfg s p st m jid now).st
  | .stop now => (stopGeneration cfg s now).1
  | .run oc now => (runGeneration cfg s oc now).1
  | .reap now => recoverOrphanedJobs s now

/-- Run a list of acts from a state. -/
def runActs (cfg : Config) (s : DemoState) : List Act → DemoState
  | [] => s
  | a :: rest => runActs cfg (stepAct cfg s a) rest

/-- An act list free of `stop` calls in web-only mode (in web-only mode
`stop_generation` raises before its bookkeeping; sequences of `StartJob`
calls and the execution units they spawn never contain a stop). -/
def actsAllowed (cfg : Config) (acts : List Act) : Bool :=
  acts.all (fun a => match a with
    | .stop _ => !cfg.webOnly
    | _ => true)

/-- Number of `active` records in a job history. -/
def activeCount (jobs : List Job) : Nat :=
  (jobs.filter (fun j => j.status = .active)).length

/-- The single-flight invariant: every `active` record is the current job of
a running demo, and job ids are unique. -/
def SingleFlightInv (s : DemoState) : Prop :=
  (∀ j ∈ s.jobs, j.status = .active → s.demoActive = true ∧ s.currentJobId = some j.id)
    ∧ (s.jobs.map Job.id).Nodup

/-- For `start` acts, the generated job id (a fresh `uuid4` in the source) is
assumed distinct from the id of the job under observation. -/
def actFresh (a : Act) (j : Job) : Prop :=
  match a with
  | .start _ _ _ jid _ => jid ≠ j.id
  | _ => True

/-- Correspondence between states that differ only in step counters,
timestamps and per-job progress fields: ids, statuses, the current job id
and `demo_active` agree. -/
structure StatusShape (s s' : DemoState) : Prop where
  da : s'.demoActive = s.demoActive
  cur : s'.currentJobId = s.currentJobId
  ids : s'.jobs.map Job.id = s.jobs.map Job.id
  sts : ∀ j' ∈ s'.jobs, ∃ j ∈ s.jobs, j'.id = j.id ∧ j'.status = j.status

/-- No record of the history is `active`. -/
abbrev NoActive (jobs : List Job) : Prop := ∀ j ∈ jobs, j.status ≠ .active


/-- A history of twenty terminal jobs with distinct ids, used to probe the
cleanup threshold. -/
def c8Jobs : List Job := (List.range 20).map (fun i =>
  { id := toString i, prompt := "p", steps := 4, mode := "local",
    status := JStatus.completed, startTime := i, endTime := some (i + 1),
    imageUrl := none, metricsSet := false, currentStep := 4, totalSteps := 4,
    errMsg := none, elapsedTime := none })

/-- The idle state holding `c8Jobs`. -/
def c8State : DemoState := { initState with jobs := c8Jobs }

/-! ## Lemmas about the job-history primitives -/

theorem lookup_eq_some_of_mem {jobs : List Job} {j : Job}
    (hnd : (jobs.map Job.id).Nodup) (hj : j ∈ jobs) :
    lookupJob jobs j.id = some j := by
  induction jobs with
  | nil => cases hj
  | cons a l ih =>
    simp only [List.map_cons, List.nodup_cons] at hnd
    rcases List.mem_cons.mp hj with h | h
    · subst h
      simp [lookupJob, List.find?]
    · have hne : a.id ≠ j.id := by
        intro he
        exact hnd.1 (he ▸ (List.mem_map_of_mem Job.id h))
      have hx := ih hnd.2 h
      simp only [lookupJob] at hx ⊢
      rw [List.find?_cons_of_neg _ (by simp [hne])]
      exact hx

theorem lookup_map_of_id_preserving {jobs : List Job} {f : Job → Job} {tid : String}
    (hf : ∀ x, (f x).id = x.id) :
    lookupJob (jobs.map f) tid = (lookupJob jobs tid).map f := by
  induction jobs with
  | nil => simp [lookupJob]
  | cons a l ih =>
    simp only [lookupJob, List.map_cons] at ih ⊢
    by_cases h : a.id = tid
    · rw [List.find?_cons_of_pos _ (by simp [hf, h]), List.find?_cons_of_pos _ (by simp [h])]
      rfl
    · rw [List.find?_cons_of_neg _ (by simp [hf, h]), List.find?_cons_of_neg _ (by simp [h])]
      exact ih

theorem updateJob_eq_map (jobs : List Job) (jid : String) (f : Job → Job) :
    updateJob jobs jid f = jobs.map (fun j => if j.id = jid then f j else j) := rfl

theorem lookup_updateJob {jobs : List Job} {jid tid : String} {f : Job → Job}
    (hf : ∀ x, (f x).id = x.id) :
    lookupJob (updateJob jobs jid f) tid
      = (lookupJob jobs tid).map (fun j => if j.id = jid then f j else j) := by
  rw [updateJob_eq_map]
  exact lookup_map_of_id_preserving (fun x => by by_cases h : x.id = jid <;> simp [h, hf])

theorem updateJob_map_id {jobs : List Job} {jid : String} {f : Job → Job}
    (hf : ∀ x, (f x).id = x.id) :
    (updateJob jobs jid f).map Job.id = jobs.map Job.id := by
  rw [updateJob_eq_map, List.map_map]
  refine List.map_congr_left (fun x _ => ?_)
  by_cases h : x.id = jid <;> simp [h, hf]

theorem mem_updateJob_cases {jobs : List Job} {jid : String} {f : Job → Job} {j' : Job}
    (h : j' ∈ updateJob jobs jid f) :
    ∃ j ∈ jobs, (j.id = jid ∧ j' = f j) ∨ (j.id ≠ jid ∧ j' = j) := by
  rw [updateJob_eq_map] at h
  rcases List.mem_map.mp h with ⟨j, hj, he⟩
  refine ⟨j, hj, ?_⟩
  by_cases hc : j.id = jid
  · left
    exact ⟨hc, by rw [← he, if_pos hc]⟩
  · right
    exact ⟨hc, by rw [← he, if_neg hc]⟩

theorem mem_upsertJob_cases {jobs : List Job} {j j' : Job}
    (h : j' ∈ upsertJob jobs j) :
    j' = j ∨ (j' ∈ jobs ∧ j'.id ≠ j.id) := by
  unfold upsertJob at h
  by_cases hc : jobs.any (fun x => x.id = j.id)
  · rw [if_pos hc] at h
    rcases List.mem_map.mp h with ⟨x, hx, he⟩
    by_cases hid : x.id = j.id
    · left
      rw [← he, if_pos (by simp [hid])]
    · right
      constructor
      · rw [← he, if_neg (by simp [hid])]
        exact hx
      · rw [← he, if_neg (by simp [hid])]
        exact hid
  · rw [if_neg hc] at h
    rcases List.mem_append.mp h with hx | hx
    · right
      refine ⟨hx, ?_⟩
      intro he
      exact hc (List.any_eq_true.mpr ⟨j', hx, by simp [he]⟩)
    · left
      simpa using hx

theorem upsertJob_length (jobs : List Job) (j : Job) :
    (upsertJob jobs j).length ≤ jobs.length + 1 := by
  unfold upsertJob
  by_cases hc : jobs.any (fun x => x.id = j.id)
  · rw [if_pos hc]
    simp [Nat.le_succ]
  · rw [if_neg hc]
    simp

theorem upsertJob_nodup {jobs : List Job} {j : Job}
    (hnd : (jobs.map Job.id).Nodup) :
    ((upsertJob jobs j).map Job.id).Nodup := by
  unfold upsertJob
  by_cases hc : jobs.any (fun x => x.id = j.id)
  · rw [if_pos hc]
    have : (jobs.map (fun x => if x.id = j.id then j else x)).map Job.id = jobs.map Job.id := by
      rw [List.map_map]
      refine List.map_congr_left (fun x _ => ?_)
      by_cases h : x.id = j.id <;> simp [h]
    rw [this]
    exact hnd
  · rw [if_neg hc]
    rw [List.map_append]
    simp only [List.map_cons, List.map_nil]
    rw [List.nodup_append]
    refine ⟨hnd, List.nodup_singleton _, ?_⟩
    intro a ha
    simp only [List.mem_singleton]
    rcases List.mem_map.mp ha with ⟨x, hx, he⟩
    intro hae
    rw [hae] at he
    exact hc (List.any_eq_true.mpr ⟨x, hx, by simp [he]⟩)

theorem cleanupLoop_sublist : ∀ (order jobs : List Job), List.Sublist (cleanupLoop order jobs) jobs := by
  intro order
  induction order with
  | nil =>
    intro jobs
    exact List.Sublist.refl jobs
  | cons a rest ih =>
    intro jobs
    simp only [cleanupLoop]
    by_cases ht : isTerminal a.status
    · rw [if_pos ht]
      by_cases hl : (jobs.filter (fun x => x.id ≠ a.id)).length ≤ 10
      · rw [if_pos hl]
        exact List.filter_sublist jobs
      · rw [if_neg hl]
        exact (ih _).trans (List.filter_sublist jobs)
    · rw [if_neg ht]
      exact ih jobs

theorem cleanupOldJobs_sublist (jobs : List Job) : List.Sublist (cleanupOldJobs jobs) jobs := by
  unfold cleanupOldJobs
  by_cases h : jobs.length ≤ 20
  · rw [if_pos h]
  · rw [if_neg h]
    exact cleanupLoop_sublist _ _

theorem nodup_id_unique {jobs : List Job} {j j' : Job}
    (hnd : (jobs.map Job.id).Nodup) (hj : j ∈ jobs) (hj' : j' ∈ jobs)
    (he : j'.id = j.id) : j' = j := by
  have h1 := lookup_eq_some_of_mem hnd hj
  have h2 := lookup_eq_some_of_mem hnd hj'
  rw [he, h1] at h2
  exact (Option.some_inj.mp h2).symm

theorem lookup_of_sublist {l1 l2 : List Job} {tid : String} {j : Job}
    (hs : List.Sublist l1 l2) (hnd : (l2.map Job.id).Nodup)
    (hl : lookupJob l2 tid = some j) :
    lookupJob l1 tid = some j ∨ lookupJob l1 tid = none := by
  cases hx : lookupJob l1 tid with
  | none => exact Or.inr rfl
  | some x =>
    left
    have hmem : x ∈ l1 := List.mem_of_find?_eq_some hx
    have hpx : x.id = tid := by simpa using List.find?_some hx
    have hmem2 : x ∈ l2 := hs.subset hmem
    have hjmem : j ∈ l2 := List.mem_of_find?_eq_some hl
    have hpj : j.id = tid := by simpa using List.find?_some hl
    have hxe : x = j := nodup_id_unique hnd hjmem hmem2 (by rw [hpx, hpj])
    rw [hxe]

theorem lookup_upsert_ne {jobs : List Job} {j : Job} {tid : String} (hne : j.id ≠ tid) :
    lookupJob (upsertJob jobs j) tid = lookupJob jobs tid := by
  unfold upsertJob
  by_cases hc : jobs.any (fun x => x.id = j.id)
  · rw [if_pos hc]
    have hm : lookupJob (jobs.map (fun x => if x.id = j.id then j else x)) tid
        = (lookupJob jobs tid).map (fun x => if x.id = j.id then j else x) :=
      lookup_map_of_id_preserving (fun x => by by_cases h : x.id = j.id <;> simp [h])
    rw [hm]
    cases hy : lookupJob jobs tid with
    | none => rfl
    | some y =>
      have hyid : y.id = tid := by simpa using List.find?_some hy
      have : ¬ y.id = j.id := by
        rw [hyid]
        intro he
        exact hne he.symm
      simp [this]
  · rw [if_neg hc]
    unfold lookupJob
    rw [List.find?_append]
    cases hy : List.find? (fun x => x.id = tid) jobs with
    | some y => rfl
    | none =>
      simp only [Option.none_or]
      rw [List.find?_cons_of_neg _ (by simp [hne]), List.find?_nil]

theorem filter_length_le_one {jobs : List Job} {p : Job → Bool}
    (hnd : (jobs.map Job.id).Nodup)
    (hsame : ∀ a ∈ jobs, ∀ b ∈ jobs, p a = true → p b = true → a.id = b.id) :
    (jobs.filter p).length ≤ 1 := by
  induction jobs with
  | nil => simp
  | cons a l ih =>
    simp only [List.map_cons, List.nodup_cons] at hnd
    by_cases hp : p a
    · rw [List.filter_cons_of_pos hp]
      have hnil : l.filter p = [] := by
        rw [List.filter_eq_nil_iff]
        intro b hb hpb
        have hid := hsame a (List.mem_cons_self a l) b (List.mem_cons_of_mem a hb) hp hpb
        exact hnd.1 (hid ▸ List.mem_map_of_mem Job.id hb)
      rw [hnil]
      simp
    · rw [List.filter_cons_of_neg hp]
      exact ih hnd.2 (fun x hx y hy => hsame x (List.mem_cons_of_mem a hx)
        y (List.mem_cons_of_mem a hy))

theorem activeCount_le_one {s : DemoState} (hinv : SingleFlightInv s) :
    activeCount s.jobs ≤ 1 := by
  refine filter_length_le_one hinv.2 ?_
  intro a ha b hb hpa hpb
  have h1 := (hinv.1 a ha (by simpa using hpa)).2
  have h2 := (hinv.1 b hb (by simpa using hpb)).2
  rw [h1] at h2
  exact Option.some_inj.mp h2

theorem cleanupLoop_length_le : ∀ (order : List Job) {jobs : List Job},
    (∀ x ∈ order, isTerminal x.status = true) →
    (∀ x ∈ jobs, x.id ∈ order.map Job.id) →
    (cleanupLoop order jobs).length ≤ 10 := by
  intro order
  induction order with
  | nil =>
    intro jobs _ hids
    cases hj : jobs with
    | nil => simp [cleanupLoop]
    | cons a l =>
      exact absurd (hids a (by rw [hj]; exact List.mem_cons_self a l)) (by simp)
  | cons a rest ih =>
    intro jobs hterm hids
    simp only [cleanupLoop]
    rw [if_pos (hterm a (List.mem_cons_self a rest))]
    by_cases hl : (jobs.filter (fun x => x.id ≠ a.id)).length ≤ 10
    · rw [if_pos hl]
      exact hl
    · rw [if_neg hl]
      refine ih (fun x hx => hterm x (List.mem_cons_of_mem a hx)) ?_
      intro x hx
      have hmem : x ∈ jobs := List.mem_of_mem_filter hx
      have hpred : x.id ≠ a.id := by simpa using List.of_mem_filter hx
      have hin := hids x hmem
      simp only [List.map_cons, List.mem_cons] at hin
      rcases hin with h | h
      · exact absurd h hpred
      · exact h

theorem cleanupOldJobs_length {jobs : List Job}
    (hterm : ∀ x ∈ jobs, isTerminal x.status = true) :
    (cleanupOldJobs jobs).length ≤ 20 := by
  unfold cleanupOldJobs
  by_cases h : jobs.length ≤ 20
  · rw [if_pos h]
    exact h
  · rw [if_neg h]
    have h10 := cleanupLoop_length_le (sortByStart jobs)
      (fun x hx => hterm x (by simpa [sortByStart, List.mem_mergeSort] using hx))
      (fun x hx => List.mem_map_of_mem Job.id
        (by simpa [sortByStart, List.mem_mergeSort] using hx))
    omega

theorem cleanupLoop_keeps_active {jobs0 : List Job} (hnd : (jobs0.map Job.id).Nodup) :
    ∀ (order jobs : List Job), (∀ x ∈ order, x ∈ jobs0) → (∀ x ∈ jobs, x ∈ jobs0) →
    ∀ j ∈ jobs, j.status = .active → j ∈ cleanupLoop order jobs := by
  intro order
  induction order with
  | nil =>
    intro jobs _ _ j hj _
    exact hj
  | cons a rest ih =>
    intro jobs horder hjobs j hj hact
    simp only [cleanupLoop]
    by_cases ht : isTerminal a.status
    · rw [if_pos ht]
      have hne : j.id ≠ a.id := by
        intro he
        have hae : j = a := nodup_id_unique hnd (horder a (List.mem_cons_self a rest))
          (hjobs j hj) he
        rw [hae] at hact
        rw [hact] at ht
        simp [isTerminal] at ht
      have hjf : j ∈ jobs.filter (fun x => x.id ≠ a.id) :=
        List.mem_filter.mpr ⟨hj, by simp [hne]⟩
      by_cases hl : (jobs.filter (fun x => x.id ≠ a.id)).length ≤ 10
      · rw [if_pos hl]
        exact hjf
      · rw [if_neg hl]
        exact ih _ (fun x hx => horder x (List.mem_cons_of_mem a hx))
          (fun x hx => hjobs x (List.mem_of_mem_filter hx)) j hjf hact
    · rw [if_neg ht]
      exact ih _ (fun x hx => horder x (List.mem_cons_of_mem a hx)) hjobs j hj hact

theorem cleanupOldJobs_keeps_active {jobs : List Job}
    (hnd : (jobs.map Job.id).Nodup) {j : Job} (hj : j ∈ jobs)
    (hact : j.status = .active) : j ∈ cleanupOldJobs jobs := by
  unfold cleanupOldJobs
  by_cases h : jobs.length ≤ 20
  · rw [if_pos h]
    exact hj
  · rw [if_neg h]
    exact cleanupLoop_keeps_active hnd _ jobs
      (fun x hx => by simpa [sortByStart, List.mem_mergeSort] using hx)
      (fun x hx => hx) j hj hact

/-! ## Single-flight invariant preservation -/

theorem StatusShape.refl (s : DemoState) : StatusShape s s :=
  ⟨rfl, rfl, rfl, fun j' h => ⟨j', h, rfl, rfl⟩⟩

theorem StatusShape.trans {s t u : DemoState} (h1 : StatusShape s t)
    (h2 : StatusShape t u) : StatusShape s u := by
  refine ⟨h2.da.trans h1.da, h2.cur.trans h1.cur, h2.ids.trans h1.ids, ?_⟩
  intro j' hj'
  rcases h2.sts j' hj' with ⟨j1, hj1, hid1, hst1⟩
  rcases h1.sts j1 hj1 with ⟨j, hj, hid, hst⟩
  exact ⟨j, hj, hid1.trans hid, hst1.trans hst⟩

theorem inv_transfer {s s' : DemoState} (hinv : SingleFlightInv s)
    (hs : StatusShape s s') : SingleFlightInv s' := by
  constructor
  · intro j' hj' hact
    rcases hs.sts j' hj' with ⟨j, hj, hid, hst⟩
    have h := hinv.1 j hj (hst ▸ hact)
    exact ⟨hs.da.trans h.1, by rw [hs.cur, h.2, hid]⟩
  · rw [hs.ids]
    exact hinv.2

theorem shape_of_fields {s s' : DemoState}
    (hda : s'.demoActive = s.demoActive) (hcur : s'.currentJobId = s.currentJobId)
    (hjobs : s'.jobs = s.jobs) : StatusShape s s' := by
  refine ⟨hda, hcur, by rw [hjobs], ?_⟩
  intro j' hj'
  rw [hjobs] at hj'
  exact ⟨j', hj', rfl, rfl⟩

theorem shape_of_update {s s' : DemoState} {jid : String} {f : Job → Job}
    (hjobs : s'.jobs = updateJob s.jobs jid f)
    (hf : ∀ j, (f j).id = j.id) (hst : ∀ j, (f j).status = j.status)
    (hda : s'.demoActive = s.demoActive) (hcur : s'.currentJobId = s.currentJobId) :
    StatusShape s s' := by
  refine ⟨hda, hcur, by rw [hjobs]; exact updateJob_map_id hf, ?_⟩
  intro j' hj'
  rw [hjobs] at hj'
  rcases mem_updateJob_cases hj' with ⟨j, hj, h | h⟩
  · exact ⟨j, hj, by rw [h.2, hf], by rw [h.2, hst]⟩
  · exact ⟨j, hj, by rw [h.2], by rw [h.2]⟩

theorem progressCallback_shape (s : DemoState) (cs ts : Nat) :
    StatusShape s (progressCallback s cs ts).1 := by
  unfold progressCallback
  split
  · split
    · split
      · exact shape_of_update rfl (fun j => rfl) (fun j => rfl) rfl rfl
      · exact shape_of_fields rfl rfl rfl
    · exact shape_of_fields rfl rfl rfl
  · exact StatusShape.refl s

theorem runCallbacksFrom_shape (ts : Nat) :
    ∀ (cs : List Nat) (s : DemoState), StatusShape s (runCallbacksFrom s ts cs).1 := by
  intro cs
  induction cs with
  | nil =>
    intro s
    exact StatusShape.refl s
  | cons c rest ih =>
    intro s
    simp only [runCallbacksFrom]
    exact (progressCallback_shape s c ts).trans (ih _)

theorem storeImage_shape (s : DemoState) : StatusShape s (storeImage s) := by
  unfold storeImage
  split
  · exact shape_of_update rfl (fun j => rfl) (fun j => rfl) rfl rfl
  · exact StatusShape.refl s

/-- States whose history has no `active` record satisfy the single-flight
invariant outright. -/
theorem inv_of_no_active {s : DemoState}
    (hna : NoActive s.jobs)
    (hnd : (s.jobs.map Job.id).Nodup) : SingleFlightInv s :=
  ⟨fun j hj hact => absurd hact (hna j hj), hnd⟩

theorem updateJob_no_active {jobs : List Job} {jid : String} {f : Job → Job}
    (hcur : ∀ j ∈ jobs, j.status = .active → j.id = jid)
    (hf : ∀ j, (f j).status ≠ .active) :
    NoActive (updateJob jobs jid f) := by
  intro j' hj' hact
  rcases mem_updateJob_cases hj' with ⟨j, hj, h | h⟩
  · exact hf j (h.2 ▸ hact)
  · exact h.1 (hcur j hj (h.2 ▸ hact))

theorem updateJob_preserves_no_active {jobs : List Job} {jid : String} {f : Job → Job}
    (hna : NoActive jobs) (hf : ∀ j, (f j).status ≠ .active) :
    NoActive (updateJob jobs jid f) := by
  intro j' hj' hact
  rcases mem_updateJob_cases hj' with ⟨j, hj, h | h⟩
  · exact hf j (h.2 ▸ hact)
  · exact hna j hj (h.2 ▸ hact)

theorem inv_active_id {s : DemoState} (hinv : SingleFlightInv s) {jid : String}
    (hc : s.currentJobId = some jid) :
    ∀ j ∈ s.jobs, j.status = .active → j.id = jid := by
  intro j hj hact
  have h := (hinv.1 j hj hact).2
  rw [hc] at h
  exact (Option.some_inj.mp h).symm

theorem inv_no_active_none {s : DemoState} (hinv : SingleFlightInv s)
    (hc : s.currentJobId = none) : NoActive s.jobs := by
  intro j hj hact
  have h := (hinv.1 j hj hact).2
  rw [hc] at h
  cases h

theorem inv_no_active_miss {s : DemoState} (hinv : SingleFlightInv s) {jid : String}
    (hc : s.currentJobId = some jid) (hl : ¬ (lookupJob s.jobs jid).isSome = true) :
    NoActive s.jobs := by
  intro j hj hact
  have hje := inv_active_id hinv hc j hj hact
  have hlk := lookup_eq_some_of_mem hinv.2 hj
  rw [hje] at hlk
  rw [hlk] at hl
  simp at hl

theorem gcMark_no_active {s : DemoState} (hinv : SingleFlightInv s) :
    NoActive (gcMark s).jobs ∧ ((gcMark s).jobs.map Job.id).Nodup := by
  unfold gcMark
  split
  · rename_i jid hc
    split
    · refine ⟨updateJob_no_active (inv_active_id hinv hc) (fun j => by simp [gcJob]), ?_⟩
      rw [updateJob_map_id (f := gcJob s) (fun j => rfl)]
      exact hinv.2
    · rename_i hl
      exact ⟨inv_no_active_miss hinv hc hl, hinv.2⟩
  · rename_i hc
    exact ⟨inv_no_active_none hinv hc, hinv.2⟩

theorem generationComplete_no_active (cfg : Config) {s : DemoState}
    (hinv : SingleFlightInv s) :
    NoActive (generationComplete cfg s).1.jobs
      ∧ ((generationComplete cfg s).1.jobs.map Job.id).Nodup := by
  unfold generationComplete
  split
  · exact gcMark_no_active hinv
  · split
    · exact gcMark_no_active hinv
    · exact gcMark_no_active hinv

theorem setJobError_no_active {s : DemoState} {msg : String} (hinv : SingleFlightInv s) :
    NoActive (setJobError s msg).jobs ∧ ((setJobError s msg).jobs.map Job.id).Nodup := by
  unfold setJobError
  split
  · rename_i jid hc
    split
    · refine ⟨updateJob_no_active (inv_active_id hinv hc) (fun j => by simp [errJob]), ?_⟩
      rw [updateJob_map_id (f := errJob msg) (fun j => rfl)]
      exact hinv.2
    · rename_i hl
      exact ⟨inv_no_active_miss hinv hc hl, hinv.2⟩
  · rename_i hc
    exact ⟨inv_no_active_none hinv hc, hinv.2⟩

theorem generationError_no_active {cfg : Config} {s : DemoState} {msg : String}
    (hna : NoActive s.jobs) (hnd : (s.jobs.map Job.id).Nodup) :
    NoActive (generationError cfg s msg).1.jobs
      ∧ ((generationError cfg s msg).1.jobs.map Job.id).Nodup := by
  unfold generationError
  split
  · exact ⟨hna, hnd⟩
  · split
    · split
      · refine ⟨updateJob_preserves_no_active hna (fun j => by simp [errJob]), ?_⟩
        rw [updateJob_map_id (f := errJob msg) (fun j => rfl)]
        exact hnd
      · exact ⟨hna, hnd⟩
    · exact ⟨hna, hnd⟩

theorem stopGeneration_no_active {cfg : Config} {s : DemoState} {now : Nat}
    (hinv : SingleFlightInv s) (hw : cfg.webOnly = false) :
    NoActive (stopGeneration cfg s now).1.jobs
      ∧ ((stopGeneration cfg s now).1.jobs.map Job.id).Nodup := by
  unfold stopGeneration
  rw [if_neg (by simp [hw])]
  split
  · rename_i jid hc
    split
    · refine ⟨updateJob_no_active (inv_active_id hinv hc) (fun j => by simp [stopJob]), ?_⟩
      rw [updateJob_map_id (f := stopJob now) (fun j => rfl)]
      exact hinv.2
    · rename_i hl
      exact ⟨inv_no_active_miss (s := s) hinv hc hl, hinv.2⟩
  · rename_i hc
    exact ⟨inv_no_active_none (s := s) hinv hc, hinv.2⟩

theorem inv_runFailTail {cfg : Config} {s1 : DemoState} {msg : String}
    (hinv : SingleFlightInv s1) : SingleFlightInv (runFailTail cfg s1 msg).1 := by
  unfold runFailTail
  have h1 : NoActive (setJobError s1 msg).jobs
      ∧ ((setJobError s1 msg).jobs.map Job.id).Nodup := setJobError_no_active hinv
  have h2 : NoActive (generationError cfg (setJobError s1 msg) msg).1.jobs
      ∧ ((generationError cfg (setJobError s1 msg) msg).1.jobs.map Job.id).Nodup :=
    generationError_no_active h1.1 h1.2
  exact inv_of_no_active h2.1 h2.2

theorem inv_runOkTail {cfg : Config} {s2 : DemoState} {nowEnd : Nat}
    (hinv : SingleFlightInv s2) : SingleFlightInv (runOkTail cfg s2 nowEnd).1 := by
  unfold runOkTail
  split
  · have hinv3 : SingleFlightInv { s2 with endTime := some nowEnd } := ⟨hinv.1, hinv.2⟩
    have hgc := generationComplete_no_active cfg hinv3
    split
    · rename_i sc evs heq
      rw [heq] at hgc
      exact inv_of_no_active hgc.1 hgc.2
    · rename_i sc evs e heq
      rw [heq] at hgc
      exact inv_runFailTail (inv_of_no_active hgc.1 hgc.2)
  · exact hinv

theorem inv_runGeneration {cfg : Config} {s : DemoState} {oc : BackendOutcome}
    {nowEnd : Nat} (hinv : SingleFlightInv s) :
    SingleFlightInv (runGeneration cfg s oc nowEnd).1 := by
  cases oc with
  | ok =>
    have h0 : SingleFlightInv { s with totalSteps := platformSteps cfg } :=
      ⟨hinv.1, hinv.2⟩
    have h1 := inv_transfer h0 (runCallbacksFrom_shape (platformSteps cfg)
      (stepList (platformSteps cfg)) { s with totalSteps := platformSteps cfg })
    have h2 := inv_transfer h1 (storeImage_shape _)
    exact inv_runOkTail h2
  | fail msg k =>
    have h0 : SingleFlightInv { s with totalSteps := platformSteps cfg } :=
      ⟨hinv.1, hinv.2⟩
    have h1 := inv_transfer h0 (runCallbacksFrom_shape (platformSteps cfg)
      (stepList (min k (platformSteps cfg))) { s with totalSteps := platformSteps cfg })
    exact inv_runFailTail h1

theorem inv_startGeneration {cfg : Config} {s : DemoState} {p m jid : String}
    {st now : Nat} (hinv : SingleFlightInv s) :
    SingleFlightInv (startGeneration cfg s p st m jid now).st := by
  unfold startGeneration
  split
  · exact hinv
  · split
    · exact hinv
    · rename_i hda hmm
      have hda' : s.demoActive = false := by
        cases h : s.demoActive with
        | true => exact absurd h hda
        | false => rfl
      have hnd1 : ((cleanupOldJobs s.jobs).map Job.id).Nodup :=
        ((cleanupOldJobs_sublist s.jobs).map Job.id).nodup hinv.2
      constructor
      · intro j' hj' hact
        rcases mem_upsertJob_cases hj' with h | h
        · exact ⟨rfl, by rw [h]⟩
        · have hsub := (cleanupOldJobs_sublist s.jobs).subset h.1
          have hfls := (hinv.1 j' hsub hact).1
          rw [hda'] at hfls
          cases hfls
      · exact upsertJob_nodup hnd1

theorem inv_recoverOrphanedJobs {s : DemoState} {now : Nat}
    (hinv : SingleFlightInv s) : SingleFlightInv (recoverOrphanedJobs s now) := by
  unfold recoverOrphanedJobs
  constructor
  · intro j' hj' hact
    rcases List.mem_map.mp hj' with ⟨j, hj, he⟩
    by_cases hcase : j.status = JStatus.active ∧ now - j.startTime > orphanTimeout
    · rw [if_pos hcase] at he
      rw [← he] at hact
      simp [reapJob] at hact
    · rw [if_neg hcase] at he
      rw [← he] at hact ⊢
      exact hinv.1 j hj hact
  · have hids : (s.jobs.map (fun j =>
        if j.status = JStatus.active ∧ now - j.startTime > orphanTimeout then reapJob now j
        else j)).map Job.id = s.jobs.map Job.id := by
      rw [List.map_map]
      refine List.map_congr_left (fun x _ => ?_)
      by_cases h : x.status = JStatus.active ∧ now - x.startTime > orphanTimeout <;>
        simp [h, reapJob]
    rw [hids]
    exact hinv.2

theorem inv_stepAct {cfg : Config} {s : DemoState} (hinv : SingleFlightInv s) :
    ∀ a : Act, (cfg.webOnly = true → ∀ t, a ≠ Act.stop t) →
      SingleFlightInv (stepAct cfg s a) := by
  intro a hallow
  cases a with
  | start p st m jid now => exact inv_startGeneration hinv
  | stop now =>
    have hw : cfg.webOnly = false := by
      cases h : cfg.webOnly with
      | true => exact absurd rfl (hallow h now)
      | false => rfl
    have h : NoActive (stopGeneration cfg s now).1.jobs
        ∧ ((stopGeneration cfg s now).1.jobs.map Job.id).Nodup :=
      stopGeneration_no_active hinv hw
    exact inv_of_no_active h.1 h.2
  | run oc nowEnd => exact inv_runGeneration hinv
  | reap now => exact inv_recoverOrphanedJobs hinv

theorem inv_runActs {cfg : Config} : ∀ (acts : List Act) (s : DemoState),
    SingleFlightInv s → actsAllowed cfg acts = true →
    SingleFlightInv (runActs cfg s acts) := by
  intro acts
  induction acts with
  | nil =>
    intro s hinv _
    exact hinv
  | cons a rest ih =>
    intro s hinv hall
    simp only [actsAllowed, List.all_cons, Bool.and_eq_true] at hall
    refine ih _ (inv_stepAct hinv a ?_) ?_
    · intro hw t hat
      rw [hat] at hall
      simp [hw] at hall
    · simpa [actsAllowed] using hall.2

theorem inv_init : SingleFlightInv initState := by
  constructor
  · intro j hj
    simp [initState] at hj
  · simp [initState]

/-! ## Lookup preservation for records other than the current job -/

theorem lookup_updateJob_ne {jobs : List Job} {jid tid : String} {f : Job → Job}
    (hf : ∀ x, (f x).id = x.id) (hne : jid ≠ tid) :
    lookupJob (updateJob jobs jid f) tid = lookupJob jobs tid := by
  rw [lookup_updateJob hf]
  cases hy : lookupJob jobs tid with
  | none => rfl
  | some y =>
    have hyid : y.id = tid := by simpa using List.find?_some hy
    have hyne : ¬ y.id = jid := by
      rw [hyid]
      exact fun h => hne h.symm
    simp [hyne]

theorem progressCallback_lookup {s : DemoState} {cs ts : Nat} {tid : String}
    (hcur : s.currentJobId ≠ some tid) :
    lookupJob (progressCallback s cs ts).1.jobs tid = lookupJob s.jobs tid := by
  unfold progressCallback
  split
  · split
    · rename_i jid hc
      split
      · exact lookup_updateJob_ne (fun x => rfl) (fun he => hcur (by rw [hc, he]))
      · rfl
    · rfl
  · rfl

theorem runCallbacksFrom_lookup {ts : Nat} : ∀ (cs : List Nat) (s : DemoState)
    (tid : String), s.currentJobId ≠ some tid →
    lookupJob (runCallbacksFrom s ts cs).1.jobs tid = lookupJob s.jobs tid := by
  intro cs
  induction cs with
  | nil =>
    intro s tid _
    rfl
  | cons c rest ih =>
    intro s tid hcur
    simp only [runCallbacksFrom]
    have hc2 : (progressCallback s c ts).1.currentJobId = s.currentJobId :=
      (progressCallback_shape s c ts).cur
    rw [ih _ _ (by rw [hc2]; exact hcur)]
    exact progressCallback_lookup hcur

theorem storeImage_lookup {s : DemoState} {tid : String}
    (hcur : s.currentJobId ≠ some tid) :
    lookupJob (storeImage s).jobs tid = lookupJob s.jobs tid := by
  unfold storeImage
  split
  · rename_i jid hc
    exact lookup_updateJob_ne (fun x => rfl) (fun he => hcur (by rw [hc, he]))
  · rfl

theorem gcMark_lookup {s : DemoState} {tid : String}
    (hcur : s.currentJobId ≠ some tid) :
    lookupJob (gcMark s).jobs tid = lookupJob s.jobs tid := by
  unfold gcMark
  split
  · rename_i jid hc
    split
    · exact lookup_updateJob_ne (fun x => rfl) (fun he => hcur (by rw [hc, he]))
    · rfl
  · rfl

theorem gcMark_cur (s : DemoState) : (gcMark s).currentJobId = s.currentJobId := by
  unfold gcMark
  split
  · split <;> rfl
  · rfl

theorem generationComplete_jobs (cfg : Config) (s : DemoState) :
    (generationComplete cfg s).1.jobs = (gcMark s).jobs
      ∧ (generationComplete cfg s).1.currentJobId = s.currentJobId := by
  unfold generationComplete
  split
  · exact ⟨rfl, gcMark_cur s⟩
  · split
    · exact ⟨rfl, gcMark_cur s⟩
    · exact ⟨rfl, gcMark_cur s⟩

theorem setJobError_lookup {s : DemoState} {msg tid : String}
    (hcur : s.currentJobId ≠ some tid) :
    lookupJob (setJobError s msg).jobs tid = lookupJob s.jobs tid
      ∧ (setJobError s msg).currentJobId = s.currentJobId := by
  unfold setJobError
  split
  · rename_i jid hc
    split
    · exact ⟨lookup_updateJob_ne (fun x => rfl) (fun he => hcur (by rw [hc, he])), rfl⟩
    · exact ⟨rfl, rfl⟩
  · exact ⟨rfl, rfl⟩

theorem generationError_lookup {cfg : Config} {s : DemoState} {msg tid : String}
    (hcur : s.currentJobId ≠ some tid) :
    lookupJob (generationError cfg s msg).1.jobs tid = lookupJob s.jobs tid
      ∧ (generationError cfg s msg).1.currentJobId = s.currentJobId := by
  unfold generationError
  split
  · exact ⟨rfl, rfl⟩
  · split
    · rename_i jid hc
      split
      · exact ⟨lookup_updateJob_ne (fun x => rfl) (fun he => hcur (by rw [hc, he])), rfl⟩
      · exact ⟨rfl, rfl⟩
    · exact ⟨rfl, rfl⟩

theorem stopGeneration_lookup {cfg : Config} {s : DemoState} {now : Nat} {tid : String}
    (hcur : s.currentJobId ≠ some tid) :
    lookupJob (stopGeneration cfg s now).1.jobs tid = lookupJob s.jobs tid := by
  unfold stopGeneration
  split
  · rfl
  · split
    · rename_i jid hc
      split
      · exact lookup_updateJob_ne (fun x => rfl) (fun he => hcur (by rw [hc, he]))
      · rfl
    · rfl

theorem runFailTail_lookup {cfg : Config} {s1 : DemoState} {msg tid : String}
    (hcur : s1.currentJobId ≠ some tid) :
    lookupJob (runFailTail cfg s1 msg).1.jobs tid = lookupJob s1.jobs tid := by
  unfold runFailTail
  have h1 : lookupJob (setJobError s1 msg).jobs tid = lookupJob s1.jobs tid
      ∧ (setJobError s1 msg).currentJobId = s1.currentJobId := setJobError_lookup hcur
  have h2 : lookupJob (generationError cfg (setJobError s1 msg) msg).1.jobs tid
      = lookupJob (setJobError s1 msg).jobs tid
      ∧ (generationError cfg (setJobError s1 msg) msg).1.currentJobId
        = (setJobError s1 msg).currentJobId :=
    generationError_lookup (show (setJobError s1 msg).currentJobId ≠ some tid by
      rw [h1.2]; exact hcur)
  rw [h2.1, h1.1]

theorem runOkTail_lookup {cfg : Config} {s2 : DemoState} {nowEnd : Nat} {tid : String}
    (hcur : s2.currentJobId ≠ some tid) :
    lookupJob (runOkTail cfg s2 nowEnd).1.jobs tid = lookupJob s2.jobs tid := by
  unfold runOkTail
  split
  · have hgc := generationComplete_jobs cfg { s2 with endTime := some nowEnd }
    have hlk : lookupJob (generationComplete cfg
        { s2 with endTime := some nowEnd }).1.jobs tid = lookupJob s2.jobs tid := by
      rw [hgc.1]
      exact gcMark_lookup hcur
    split
    · rename_i sc evs heq
      rw [heq] at hlk
      exact hlk
    · rename_i sc evs e heq
      have hcur2 : sc.currentJobId ≠ some tid := by
        have hq := hgc.2
        rw [heq] at hq
        rw [hq]
        exact hcur
      rw [heq] at hlk
      rw [runFailTail_lookup hcur2]
      exact hlk
  · rfl

theorem reap_lookup_terminal {s : DemoState} {now : Nat} {j : Job}
    (hnd : (s.jobs.map Job.id).Nodup) (hmem : j ∈ s.jobs)
    (hterm : isTerminal j.status = true) :
    lookupJob (recoverOrphanedJobs s now).jobs j.id = some j := by
  unfold recoverOrphanedJobs
  have hm : lookupJob (s.jobs.map (fun x =>
      if x.status = JStatus.active ∧ now - x.startTime > orphanTimeout then reapJob now x
      else x)) j.id = (lookupJob s.jobs j.id).map (fun x =>
      if x.status = JStatus.active ∧ now - x.startTime > orphanTimeout then reapJob now x
      else x) :=
    lookup_map_of_id_preserving (fun x => by
      by_cases h : x.status = JStatus.active ∧ now - x.startTime > orphanTimeout <;>
        simp [h, reapJob])
  rw [hm, lookup_eq_some_of_mem hnd hmem]
  have hno : ¬ (j.status = JStatus.active ∧ now - j.startTime > orphanTimeout) := by
    intro h
    rw [h.1] at hterm
    simp [isTerminal] at hterm
  simp [hno]

theorem updateJob_idem {jobs : List Job} {jid : String} {f : Job → Job}
    (hf : ∀ x, (f x).id = x.id) (hff : ∀ x, f (f x) = f x) :
    updateJob (updateJob jobs jid f) jid f = updateJob jobs jid f := by
  rw [updateJob_eq_map, updateJob_eq_map, List.map_map]
  refine List.map_congr_left (fun x _ => ?_)
  by_cases h : x.id = jid
  · have hfx : (f x).id = jid := by rw [hf, h]
    simp [Function.comp, h, hfx, hff]
  · simp [Function.comp, h]

/-! ## The first-maximum behaviour of Python `max` -/

theorem maxBySnd_snd : ∀ (xs : List (String × Nat)) (x : String × Nat),
    (maxBySnd x xs).2 = max x.2 (sndMax xs) := by
  intro xs
  induction xs with
  | nil =>
    intro x
    simp [maxBySnd, sndMax]
  | cons y ys ih =>
    intro x
    simp only [maxBySnd, sndMax]
    rw [ih]
    by_cases h : y.2 > x.2
    · rw [if_pos h]
      omega
    · rw [if_neg h]
      omega

theorem maxBySnd_mem : ∀ (xs : List (String × Nat)) (x : String × Nat),
    maxBySnd x xs = x ∨ maxBySnd x xs ∈ xs := by
  intro xs
  induction xs with
  | nil =>
    intro x
    exact Or.inl rfl
  | cons y ys ih =>
    intro x
    simp only [maxBySnd]
    by_cases h : y.2 > x.2
    · rw [if_pos h]
      rcases ih y with h1 | h1
      · right
        rw [h1]
        exact List.mem_cons_self y ys
      · right
        exact List.mem_cons_of_mem y h1
    · rw [if_neg h]
      rcases ih x with h1 | h1
      · exact Or.inl h1
      · right
        exact List.mem_cons_of_mem y h1

theorem maxBySnd_first : ∀ (xs : List (String × Nat)) (x : String × Nat),
    firstWithScore (max x.2 (sndMax xs)) (x :: xs) = some (maxBySnd x xs).1 := by
  intro xs
  induction xs with
  | nil =>
    intro x
    simp [firstWithScore, maxBySnd, sndMax]
  | cons y ys ih =>
    intro x
    simp only [maxBySnd, sndMax]
    by_cases h : y.2 > x.2
    · rw [if_pos h]
      rw [show max x.2 (max y.2 (sndMax ys)) = max y.2 (sndMax ys) by omega]
      simp only [firstWithScore]
      rw [if_neg (by omega)]
      have h2 := ih y
      simp only [firstWithScore] at h2
      exact h2
    · rw [if_neg h]
      rw [show max x.2 (max y.2 (sndMax ys)) = max x.2 (sndMax ys) by omega]
      have h2 := ih x
      simp only [firstWithScore] at h2 ⊢
      by_cases hx : x.2 = max x.2 (sndMax ys)
      · rw [if_pos hx] at h2 ⊢
        exact h2
      · rw [if_neg hx] at h2 ⊢
        rw [if_neg (by omega)]
        exact h2

theorem categoryScores_pos {p : String} : ∀ x ∈ categoryScores p,
    0 < x.2 ∧ x.1 ∈ categoryNames := by
  intro x hx
  unfold categoryScores at hx
  constructor
  · simpa using List.of_mem_filter hx
  · have hm := List.mem_of_mem_filter hx
    rcases List.mem_map.mp hm with ⟨c, hc, he⟩
    rw [← he]
    exact List.mem_map_of_mem Prod.fst hc

/-! ## Claim theorems -/

/-- C9: `categorize_prompt` is a pure function of the prompt text, so
repeated calls agree; it scores categories by keyword hits on the lowercased
prompt and returns a highest-scoring category, with `abstract` when no
keyword matches; "a dragon over a castle" maps to `fantasy` and "quarterly
revenue spreadsheet" maps to `abstract`. -/
theorem C9_categorization :
    categorizePrompt "a dragon over a castle" = "fantasy"
    ∧ categorizePrompt "quarterly revenue spreadsheet" = "abstract"
    ∧ (∀ p, categoryScores p = [] → categorizePrompt p = "abstract")
    ∧ ∀ p, categoryScores p ≠ [] →
        ∃ y ∈ categoryScores p, y.1 = categorizePrompt p
          ∧ y.2 = sndMax (categoryScores p) := by
  refine ⟨by decide, by decide, ?_, ?_⟩
  · intro p hp
    unfold categorizePrompt
    rw [hp]
  · intro p hp
    unfold categorizePrompt
    cases hs : categoryScores p with
    | nil => exact absurd hs hp
    | cons z zs =>
      refine ⟨maxBySnd z zs, ?_, rfl, ?_⟩
      · rcases maxBySnd_mem zs z with h | h
        · rw [h]
          exact List.mem_cons_self z zs
        · exact List.mem_cons_of_mem z h
      · rw [maxBySnd_snd]
        rfl

/-- C9 witness: the structural clause instantiated at the dragon prompt. -/
theorem C9_categorization_witness :
    ∃ y ∈ categoryScores "a dragon over a castle",
      y.1 = categorizePrompt "a dragon over a castle"
        ∧ y.2 = sndMax (categoryScores "a dragon over a castle") :=
  C9_categorization.2.2.2 "a dragon over a castle" (by decide)

/-- C10: `categorize_prompt` always returns one of the ten registered
categories, and whenever any keyword scores, the result is the first
category in registration order (landscape, portrait, abstract, architecture,
fantasy, technology, animals, vehicles, food, space) attaining the maximal
(positive) score — Python's `max` keeps the earliest maximum. -/
theorem C10_tie_break (p : String) :
    categorizePrompt p ∈ categoryNames
    ∧ (categoryScores p ≠ [] →
        firstWithScore (sndMax (categoryScores p)) (categoryScores p)
          = some (categorizePrompt p)) := by
  constructor
  · unfold categorizePrompt
    cases hs : categoryScores p with
    | nil => decide
    | cons z zs =>
      show (maxBySnd z zs).1 ∈ categoryNames
      rcases maxBySnd_mem zs z with h | h
      · rw [h]
        exact (categoryScores_pos z (hs ▸ List.mem_cons_self z zs)).2
      · exact (categoryScores_pos _ (hs ▸ List.mem_cons_of_mem z h)).2
  · intro hp
    unfold categorizePrompt
    cases hs : categoryScores p with
    | nil => exact absurd hs hp
    | cons z zs =>
      show firstWithScore (sndMax (z :: zs)) (z :: zs) = some (maxBySnd z zs).1
      have hq : sndMax (z :: zs) = max z.2 (sndMax zs) := rfl
      rw [hq]
      exact maxBySnd_first zs z

/-- C10 witness: "dragon car" scores `fantasy` and `vehicles` one point each;
the earlier-registered `fantasy` wins the tie. -/
theorem C10_tie_break_witness :
    firstWithScore (sndMax (categoryScores "dragon car"))
        (categoryScores "dragon car") = some (categorizePrompt "dragon car")
    ∧ categorizePrompt "dragon car" = "fantasy"
    ∧ categoryScores "dragon car" = [("fantasy", 1), ("vehicles", 1)] :=
  ⟨(C10_tie_break "dragon car").2 (by decide), by decide, by decide⟩

/-- C4: the emergency generator's `generate_image` is total: for every
filesystem state, external-failure pattern, prompt and step argument it
returns an image and metrics (never an error), drives the progress callback
once per step, and when no asset exists and creation fails it synthesizes a
placeholder (drawn, or the minimal 1x1 image) rather than raising. -/
theorem C4_fallback_never_fails (env : GenEnv) (platform prompt : String)
    (stepsArg : Option Nat) :
    ∃ img m cbs, emergencyGenerateImage env platform prompt stepsArg = .ok (img, m, cbs)
      ∧ 0 < m.steps
      ∧ cbs = (List.range m.steps).map (fun i => (i + 1, m.steps))
      ∧ m.hasGenerationTime = true
      ∧ (env.fsHas = [] → env.createOk = false →
          (img = ImageRes.drawn prompt 768 768 ∨ img = ImageRes.minimal)) := by
  unfold emergencyGenerateImage
  refine ⟨_, _, _, rfl, ?_, rfl, rfl, ?_⟩
  · cases stepsArg with
    | none => by_cases h : platform = "snapdragon" <;> simp [h]
    | some k =>
      cases k with
      | zero => by_cases h : platform = "snapdragon" <;> simp [h]
      | succ n => simp
  · intro hfs hco
    have hsel : selectEmergencyImage env platform
        = { path := assetFilename "abstract" 0 platform, fs := [] } := by
      unfold selectEmergencyImage
      rw [hfs]
      simp [availableImages, ensureEmergencyAssets, hco, hfs]
    rw [hsel]
    unfold loadSelectedImage
    simp [createFallbackImage]

/-- C4 witness: with an empty catalog and failing asset creation the
generator still returns a synthesized image. -/
theorem C4_fallback_never_fails_witness :
    ∃ img m cbs, emergencyGenerateImage ⟨[], false, true, true, 0⟩ "intel" "hello"
        (some 3) = .ok (img, m, cbs)
      ∧ (img = ImageRes.drawn "hello" 768 768 ∨ img = ImageRes.minimal) := by
  obtain ⟨img, m, cbs, heq, hpos, hcbs, hmet, hsyn⟩ :=
    C4_fallback_never_fails ⟨[], false, true, true, 0⟩ "intel" "hello" (some 3)
  exact ⟨img, m, cbs, heq, hsyn rfl rfl⟩

/-- C3: in web-only mode (`EMERGENCY_MODE` set, Tk widgets `None`) a backend
exception during `run_generation` is caught at line 763 and the job record is
marked `error`, but `generation_error` then dereferences the `None`
`status_label` (line 872): the resulting `AttributeError` escapes
`run_generation` and no `error` event is emitted — contradicting the claim
that backend exceptions never propagate out of the orchestrator and are
always converted into an emitted `error` event. -/
theorem C3_backend_exception_escapes :
    (runGeneration ⟨true, false, false, false⟩
        ((startGeneration ⟨true, false, false, false⟩ initState "p" 4 "local" "j1" 100).st)
        (BackendOutcome.fail "model not found" 0) 200).2.2 = some attributeErr
    ∧ (runGeneration ⟨true, false, false, false⟩
        ((startGeneration ⟨true, false, false, false⟩ initState "p" 4 "local" "j1" 100).st)
        (BackendOutcome.fail "model not found" 0) 200).2.1 = []
    ∧ ((lookupJob (runGeneration ⟨true, false, false, false⟩
        ((startGeneration ⟨true, false, false, false⟩ initState "p" 4 "local" "j1" 100).st)
        (BackendOutcome.fail "model not found" 0) 200).1.jobs "j1").map Job.status
      = some JStatus.error)
    ∧ (startGeneration ⟨true, false, false, false⟩ initState "p" 4 "local" "j1" 100).ret
      = some "j1" := by decide

/-- C6 counterexample: `StartJob("a futuristic cityscape", steps=4)` on a
non-Snapdragon platform produces 25 progress events, not 4 —
`run_generation` recomputes the step count from the platform (25 for Intel)
and ignores the requested steps. -/
theorem C6_steps_counterexample :
    ((runGeneration ⟨false, false, false, false⟩
        ((startGeneration ⟨false, false, false, false⟩ initState
          "a futuristic cityscape" 4 "local" "job-1" 100).st)
        BackendOutcome.ok 200).2.1.countP (fun e => match e with
          | Ev.progress _ _ _ => true
          | _ => false)) = 25
    ∧ ¬ ((runGeneration ⟨false, false, false, false⟩
        ((startGeneration ⟨false, false, false, false⟩ initState
          "a futuristic cityscape" 4 "local" "job-1" 100).st)
        BackendOutcome.ok 200).2.1.countP (fun e => match e with
          | Ev.progress _ _ _ => true
          | _ => false)) = 4 := by decide

/-- C6 amended: the requested step count is recorded in the job record but
not honoured by execution.  The scenario `StartJob("a futuristic cityscape",
steps=4)` on a non-Snapdragon platform is accepted, emits `job_started`
(reporting the requested 4), then the backend is driven with 25 steps: 25
`progress` events with `currentStep` 1..25, then one `completed` event with a
non-null artifact reference and positive elapsed time, and no exception. -/
theorem C6_scenario_amended :
    (startGeneration ⟨false, false, false, false⟩ initState
      "a futuristic cityscape" 4 "local" "job-1" 100).ret = some "job-1"
    ∧ (startGeneration ⟨false, false, false, false⟩ initState
        "a futuristic cityscape" 4 "local" "job-1" 100).evs
      = [Ev.jobStarted "job-1" "a futuristic cityscape" 4 "local"]
    ∧ (runGeneration ⟨false, false, false, false⟩
        ((startGeneration ⟨false, false, false, false⟩ initState
          "a futuristic cityscape" 4 "local" "job-1" 100).st)
        BackendOutcome.ok 200).2.1
      = (stepList 25).map (fun c => Ev.progress "job-1" c 25)
        ++ [Ev.completed "job-1" (some "/static/generated/job-1.png") 100 25]
    ∧ (runGeneration ⟨false, false, false, false⟩
        ((startGeneration ⟨false, false, false, false⟩ initState
          "a futuristic cityscape" 4 "local" "job-1" 100).st)
        BackendOutcome.ok 200).2.2 = none
    ∧ 0 < 100 := by decide

/-- C1: single-flight — over every allowed act sequence from the initial
state, at most one job record is `active` at any instant, and a
`start_generation` call made while a job is active is rejected (returns
`None`) without changing the state.  (Allowed: in web-only mode no
`stop_generation` occurs; a sequence of `StartJob` calls and the execution
units, sweeps and callbacks they spawn never contains one.) -/
theorem C1_single_flight (cfg : Config) (acts : List Act)
    (hallow : actsAllowed cfg acts = true) :
    activeCount (runActs cfg initState acts).jobs ≤ 1
    ∧ ∀ (p m jid : String) (st now : Nat),
        (∃ j ∈ (runActs cfg initState acts).jobs, j.status = .active) →
        (startGeneration cfg (runActs cfg initState acts) p st m jid now).ret = none
        ∧ (startGeneration cfg (runActs cfg initState acts) p st m jid now).st
          = runActs cfg initState acts := by
  have hinv := inv_runActs acts initState inv_init hallow
  constructor
  · exact activeCount_le_one hinv
  · rintro p m jid st now ⟨j, hj, hact⟩
    have hda := (hinv.1 j hj hact).1
    unfold startGeneration
    rw [if_pos hda]
    exact ⟨rfl, rfl⟩

/-- C1 witness: after one accepted start the active count is 1 ≤ 1 and a
second start is rejected. -/
theorem C1_single_flight_witness :
    activeCount (runActs ⟨false, false, false, false⟩ initState
      [Act.start "p" 4 "local" "j1" 5]).jobs ≤ 1
    ∧ (startGeneration ⟨false, false, false, false⟩
        (runActs ⟨false, false, false, false⟩ initState [Act.start "p" 4 "local" "j1" 5])
        "q" 4 "local" "j2" 6).ret = none := by
  have h := C1_single_flight ⟨false, false, false, false⟩
    [Act.start "p" 4 "local" "j1" 5] (by decide)
  refine ⟨h.1, (h.2 "q" "local" "j2" 4 6 ?_).1⟩
  exact ⟨⟨"j1", "p", 4, "local", JStatus.active, 5, none, none, false, 0, 4, none, none⟩,
    by decide, rfl⟩

/-- C5 counterexample: a job started at time 0 and reaped at time 400 is
indeed marked `error`, but a start_generation call at time 401 is still
rejected — the reaper leaves `demo_active` set, so the single-flight slot is
not freed, contrary to the claim. -/
theorem C5_reaper_counterexample :
    ((lookupJob (recoverOrphanedJobs
        ((startGeneration ⟨false, false, false, false⟩ initState "p" 4 "local" "j1" 0).st)
        400).jobs "j1").map Job.status = some JStatus.error)
    ∧ (startGeneration ⟨false, false, false, false⟩
        (recoverOrphanedJobs
          ((startGeneration ⟨false, false, false, false⟩ initState "p" 4 "local" "j1" 0).st)
          400) "q" 4 "local" "j2" 401).ret = none := by decide

/-- C5 amended: `recover_orphaned_jobs`, when invoked, marks exactly the jobs
`active` for strictly more than `orphan_timeout = 300` seconds as `error`
with the timeout message and an end timestamp, and leaves everything else —
in particular `demo_active` — unchanged, so it does not unblock
`start_generation`; no periodic sweep in the repository invokes it. -/
theorem C5_reaper_amended (cfg : Config) (s : DemoState) (now : Nat) :
    (recoverOrphanedJobs s now).demoActive = s.demoActive
    ∧ (recoverOrphanedJobs s now).currentJobId = s.currentJobId
    ∧ (∀ j ∈ s.jobs, j.status = .active → now - j.startTime > orphanTimeout →
        reapJob now j ∈ (recoverOrphanedJobs s now).jobs)
    ∧ (∀ j ∈ s.jobs, ¬ (j.status = JStatus.active ∧ now - j.startTime > orphanTimeout) →
        j ∈ (recoverOrphanedJobs s now).jobs)
    ∧ ∀ (p m jid : String) (st t : Nat), s.demoActive = true →
        (startGeneration cfg (recoverOrphanedJobs s now) p st m jid t).ret = none := by
  refine ⟨rfl, rfl, ?_, ?_, ?_⟩
  · intro j hj hact hto
    unfold recoverOrphanedJobs
    refine List.mem_map.mpr ⟨j, hj, ?_⟩
    rw [if_pos ⟨hact, hto⟩]
  · intro j hj hn
    unfold recoverOrphanedJobs
    refine List.mem_map.mpr ⟨j, hj, ?_⟩
    rw [if_neg hn]
  · intro p m jid st t hda
    unfold startGeneration
    rw [if_pos (show (recoverOrphanedJobs s now).demoActive = true from hda)]

/-- C5 witness: the amended reaper behaviour at a concrete orphaned job. -/
theorem C5_reaper_witness :
    reapJob 400 ⟨"j1", "p", 4, "local", JStatus.active, 0, none, none, false, 0, 4, none, none⟩
      ∈ (recoverOrphanedJobs
          ((startGeneration ⟨false, false, false, false⟩ initState "p" 4 "local" "j1" 0).st)
          400).jobs
    ∧ (startGeneration ⟨false, false, false, false⟩
        (recoverOrphanedJobs
          ((startGeneration ⟨false, false, false, false⟩ initState "p" 4 "local" "j1" 0).st)
          400) "q" 4 "local" "j2" 401).ret = none := by
  have h := C5_reaper_amended ⟨false, false, false, false⟩
    ((startGeneration ⟨false, false, false, false⟩ initState "p" 4 "local" "j1" 0).st) 400
  refine ⟨?_, ?_⟩
  · exact h.2.2.1 _ (by decide) (by decide) (by decide)
  · exact h.2.2.2.2 "q" "local" "j2" 4 401 (by decide)

theorem stopGeneration_eq_none {cfg : Config} {s : DemoState} {now : Nat}
    (hw : cfg.webOnly = false) (hc : s.currentJobId = none) :
    stopGeneration cfg s now = ({ s with demoActive := false }, [], none) := by
  unfold stopGeneration
  rw [if_neg (by simp [hw]), hc]

theorem stopGeneration_eq_miss {cfg : Config} {s : DemoState} {now : Nat} {jid : String}
    (hw : cfg.webOnly = false) (hc : s.currentJobId = some jid)
    (hl : ¬ (lookupJob s.jobs jid).isSome = true) :
    stopGeneration cfg s now = ({ s with demoActive := false }, [], none) := by
  unfold stopGeneration
  rw [if_neg (by simp [hw]), hc]
  dsimp only
  rw [if_neg hl]

theorem stopGeneration_eq_hit {cfg : Config} {s : DemoState} {now : Nat} {jid : String}
    (hw : cfg.webOnly = false) (hc : s.currentJobId = some jid)
    (hl : (lookupJob s.jobs jid).isSome = true) :
    stopGeneration cfg s now
      = ({ s with demoActive := false, jobs := updateJob s.jobs jid (stopJob now) },
        [], none) := by
  unfold stopGeneration
  rw [if_neg (by simp [hw]), hc]
  dsimp only
  rw [if_pos hl]

/-- C7 counterexample: after a run completes, nothing is active
(`demo_active` is `False`) and the job is terminal (`completed`), yet a
subsequent `stop_generation` rewrites its status to `stopped` and overwrites
its end timestamp — it is not a no-op when no job is active. -/
theorem C7_stop_counterexample :
    ((runGeneration ⟨false, false, false, false⟩
        ((startGeneration ⟨false, false, false, false⟩ initState "p" 4 "local" "j1" 100).st)
        BackendOutcome.ok 200).1.demoActive = false)
    ∧ ((lookupJob (runGeneration ⟨false, false, false, false⟩
        ((startGeneration ⟨false, false, false, false⟩ initState "p" 4 "local" "j1" 100).st)
        BackendOutcome.ok 200).1.jobs "j1").map Job.status = some JStatus.completed)
    ∧ ((lookupJob (stopGeneration ⟨false, false, false, false⟩
        (runGeneration ⟨false, false, false, false⟩
          ((startGeneration ⟨false, false, false, false⟩ initState "p" 4 "local" "j1" 100).st)
          BackendOutcome.ok 200).1 300).1.jobs "j1").map Job.status
      = some JStatus.stopped)
    ∧ ((lookupJob (stopGeneration ⟨false, false, false, false⟩
        (runGeneration ⟨false, false, false, false⟩
          ((startGeneration ⟨false, false, false, false⟩ initState "p" 4 "local" "j1" 100).st)
          BackendOutcome.ok 200).1 300).1.jobs "j1").map Job.endTime
      = some (some 300)) := by decide

/-- C7 amended: in UI mode `stop_generation` never raises and emits nothing;
it always clears `demo_active`; with no current job record it leaves the
history untouched; repeating it at the same call time is idempotent; and
whenever a current record exists — regardless of its status, active or
terminal — it rewrites that record to `stopped` with `end_time` set to the
call time. -/
theorem C7_stop_amended (cfg : Config) (s : DemoState) (now : Nat)
    (hw : cfg.webOnly = false) :
    (stopGeneration cfg s now).2.2 = none
    ∧ (stopGeneration cfg s now).2.1 = []
    ∧ (stopGeneration cfg s now).1.demoActive = false
    ∧ (s.currentJobId = none → (stopGeneration cfg s now).1.jobs = s.jobs)
    ∧ (stopGeneration cfg (stopGeneration cfg s now).1 now).1
      = (stopGeneration cfg s now).1
    ∧ ∀ jid, s.currentJobId = some jid → ∀ j ∈ s.jobs, j.id = jid →
        stopJob now j ∈ (stopGeneration cfg s now).1.jobs := by
  cases hc : s.currentJobId with
  | none =>
    have e1 : stopGeneration cfg s now = ({ s with demoActive := false }, [], none) :=
      stopGeneration_eq_none hw hc
    have e2 : stopGeneration cfg ({ s with demoActive := false } : DemoState) now
        = ({ s with demoActive := false }, [], none) := stopGeneration_eq_none hw hc
    refine ⟨by simp [e1], by simp [e1], by simp [e1], fun _ => by simp [e1],
      by simp [e1, e2], ?_⟩
    intro jid hjc
    cases hjc
  | some jid =>
    by_cases hl : (lookupJob s.jobs jid).isSome = true
    · have e1 : stopGeneration cfg s now
          = ({ s with demoActive := false, jobs := updateJob s.jobs jid (stopJob now) },
            [], none) := stopGeneration_eq_hit hw hc hl
      have hl2 : (lookupJob (updateJob s.jobs jid (stopJob now)) jid).isSome = true := by
        rw [lookup_updateJob (f := stopJob now) (fun x => rfl)]
        simpa using hl
      have e2 : stopGeneration cfg ({ s with demoActive := false, jobs := updateJob s.jobs jid (stopJob now) } : DemoState) now = ({ s with demoActive := false, jobs := updateJob (updateJob s.jobs jid (stopJob now)) jid (stopJob now) }, [], none) :=
        stopGeneration_eq_hit hw hc hl2
      have hidem : updateJob (updateJob s.jobs jid (stopJob now)) jid (stopJob now)
          = updateJob s.jobs jid (stopJob now) :=
        updateJob_idem (fun x => rfl) (fun x => rfl)
      refine ⟨by simp [e1], by simp [e1], by simp [e1], ?_, by simp [e1, e2, hidem], ?_⟩
      · intro hn
        cases hn
      · intro jid2 hjc j hj hje
        have hj2 : jid2 = jid := (Option.some_inj.mp hjc).symm
        have hmm : stopJob now j ∈ updateJob s.jobs jid (stopJob now) := by
          refine List.mem_map.mpr ⟨j, hj, ?_⟩
          rw [if_pos (by rw [hje, hj2])]
        simp [e1]
        exact hmm
    · have e1 : stopGeneration cfg s now = ({ s with demoActive := false }, [], none) :=
        stopGeneration_eq_miss hw hc hl
      have e2 : stopGeneration cfg ({ s with demoActive := false } : DemoState) now
          = ({ s with demoActive := false }, [], none) := stopGeneration_eq_miss hw hc hl
      refine ⟨by simp [e1], by simp [e1], by simp [e1], fun _ => by simp [e1],
        by simp [e1, e2], ?_⟩
      intro jid2 hjc j hj hje
      have hj2 : jid2 = jid := (Option.some_inj.mp hjc).symm
      have hsome : (lookupJob s.jobs jid).isSome = true := by
        unfold lookupJob
        rw [List.find?_isSome]
        exact ⟨j, hj, by simp [hje, hj2]⟩
      exact absurd hsome hl

/-- C7 witness: the amended stop behaviour at the idle initial state. -/
theorem C7_stop_witness :
    (stopGeneration ⟨false, false, false, false⟩ initState 7).2.2 = none
    ∧ (stopGeneration ⟨false, false, false, false⟩ initState 7).1.jobs = initState.jobs
    ∧ (stopGeneration ⟨false, false, false, false⟩
        (stopGeneration ⟨false, false, false, false⟩ initState 7).1 7).1
      = (stopGeneration ⟨false, false, false, false⟩ initState 7).1 := by
  have h := C7_stop_amended ⟨false, false, false, false⟩ initState 7 rfl
  exact ⟨h.1, h.2.2.2.1 rfl, h.2.2.2.2.1⟩

/-- C8 counterexample: with twenty terminal jobs already in history an
accepted start_generation leaves twenty-one records — the cleanup threshold
is checked before insertion and only fires above twenty, so the history does
exceed the claimed cap of twenty right after a StartJob. -/
theorem C8_cap_counterexample :
    (startGeneration ⟨false, false, false, false⟩ c8State
      "p" 4 "local" "new" 100).st.jobs.length = 21
    ∧ ¬ ((startGeneration ⟨false, false, false, false⟩ c8State
      "p" 4 "local" "new" 100).st.jobs.length ≤ 20) := by decide

/-- C8 amended: after any start_generation on a well-formed state with at
most 21 records the history still has at most 21 records (the pre-insertion
cleanup trims a history that exceeds 20 down to at most 10 — it does not
enforce 20 after insertion); and eviction only ever removes terminal jobs:
a record removed by `cleanup_old_jobs` is terminal, and an `active` record
always survives it. -/
theorem C8_history_amended (cfg : Config) (s : DemoState) (p m jid : String)
    (st now : Nat) (hinv : SingleFlightInv s) (hlen : s.jobs.length ≤ 21) :
    (startGeneration cfg s p st m jid now).st.jobs.length ≤ 21
    ∧ (∀ j ∈ s.jobs, j ∉ cleanupOldJobs s.jobs → isTerminal j.status = true)
    ∧ ∀ j ∈ s.jobs, j.status = .active → j ∈ cleanupOldJobs s.jobs := by
  have hkeep : ∀ j ∈ s.jobs, j.status = .active → j ∈ cleanupOldJobs s.jobs :=
    fun j hj hact => cleanupOldJobs_keeps_active hinv.2 hj hact
  refine ⟨?_, ?_, hkeep⟩
  · unfold startGeneration
    split
    · exact hlen
    · split
      · exact hlen
      · rename_i hda _
        have hda' : s.demoActive = false := by
          cases h : s.demoActive with
          | true => exact absurd h hda
          | false => rfl
        have hterm : ∀ x ∈ s.jobs, isTerminal x.status = true := by
          intro x hx
          cases hst : x.status with
          | active =>
            have hq := (hinv.1 x hx hst).1
            rw [hda'] at hq
            cases hq
          | completed => rfl
          | error => rfl
          | stopped => rfl
        have hclean := cleanupOldJobs_length hterm
        have hup := upsertJob_length (cleanupOldJobs s.jobs)
          { id := jid, prompt := p, steps := st, mode := m, status := .active,
            startTime := now, endTime := none, imageUrl := none, metricsSet := false,
            currentStep := 0, totalSteps := st, errMsg := none, elapsedTime := none }
        calc (upsertJob (cleanupOldJobs s.jobs)
            { id := jid, prompt := p, steps := st, mode := m, status := .active,
              startTime := now, endTime := none, imageUrl := none, metricsSet := false,
              currentStep := 0, totalSteps := st, errMsg := none,
              elapsedTime := none }).length
            ≤ (cleanupOldJobs s.jobs).length + 1 := hup
          _ ≤ 21 := by omega
  · intro j hj hnot
    cases hst : j.status with
    | active => exact absurd (hkeep j hj hst) hnot
    | completed => rfl
    | error => rfl
    | stopped => rfl

/-- C8 witness: the amended bound at the twenty-job fixture. -/
theorem C8_history_witness :
    (startGeneration ⟨false, false, false, false⟩ c8State
      "p" 4 "local" "new" 100).st.jobs.length ≤ 21 :=
  (C8_history_amended ⟨false, false, false, false⟩ c8State "p" "local" "new" 4 100
    ⟨by decide, by decide⟩ (by decide)).1

/-- C2 counterexample: a job that reached the terminal `completed` status
(and stayed retrievable through `get_status`) is mutated again by a later
`stop_generation`: its status becomes `stopped` — terminal states are not
stable for the current job. -/
theorem C2_terminal_stability_counterexample :
    ((lookupJob (runGeneration ⟨false, false, false, false⟩
        ((startGeneration ⟨false, false, false, false⟩ initState "p" 4 "local" "j1" 100).st)
        BackendOutcome.ok 200).1.jobs "j1").map Job.status = some JStatus.completed)
    ∧ ((lookupJob (stopGeneration ⟨false, false, false, false⟩
        (runGeneration ⟨false, false, false, false⟩
          ((startGeneration ⟨false, false, false, false⟩ initState "p" 4 "local" "j1" 100).st)
          BackendOutcome.ok 200).1 300).1.jobs "j1").map Job.status
      = some JStatus.stopped) := by decide

/-- C2 amended: terminal stability holds for every job other than the
current one: if a terminal record is not the current job (and a new start
uses a fresh id), then after any single act its record is either unchanged
(same lookup result) or evicted entirely; and `get_status(job_id)` rendered
from a terminal record with a nonzero end timestamp does not depend on the
query time.  (The current job's record is not protected — see the
counterexample — and error-path records lack `end_time`.) -/
theorem C2_terminal_stability_amended (cfg : Config) (s : DemoState) (a : Act) (j : Job)
    (hnd : (s.jobs.map Job.id).Nodup) (hmem : j ∈ s.jobs)
    (hterm : isTerminal j.status = true) (hcur : s.currentJobId ≠ some j.id)
    (hfresh : actFresh a j) :
    (lookupJob (stepAct cfg s a).jobs j.id = some j
      ∨ lookupJob (stepAct cfg s a).jobs j.id = none)
    ∧ ∀ t1 t2 : Nat, j.startTime ≠ 0 → j.endTime.getD 0 ≠ 0 →
        getStatusJob j t1 = getStatusJob j t2 := by
  constructor
  · cases a with
    | start p st m jid now =>
      have hne : jid ≠ j.id := hfresh
      dsimp only [stepAct]
      unfold startGeneration
      split
      · exact Or.inl (lookup_eq_some_of_mem hnd hmem)
      · split
        · exact Or.inl (lookup_eq_some_of_mem hnd hmem)
        · dsimp only
          rw [lookup_upsert_ne hne]
          exact lookup_of_sublist (cleanupOldJobs_sublist s.jobs) hnd
            (lookup_eq_some_of_mem hnd hmem)
    | stop now =>
      dsimp only [stepAct]
      rw [stopGeneration_lookup hcur]
      exact Or.inl (lookup_eq_some_of_mem hnd hmem)
    | run oc nowEnd =>
      have hc0 : ({ s with totalSteps := platformSteps cfg } :
          DemoState).currentJobId ≠ some j.id := hcur
      cases oc with
      | ok =>
        have hsh := runCallbacksFrom_shape (platformSteps cfg)
          (stepList (platformSteps cfg)) { s with totalSteps := platformSteps cfg }
        have hc1 : (runCallbacksFrom { s with totalSteps := platformSteps cfg }
            (platformSteps cfg) (stepList (platformSteps cfg))).1.currentJobId
            ≠ some j.id := by
          rw [hsh.cur]
          exact hcur
        have hc2 : (storeImage (runCallbacksFrom
            { s with totalSteps := platformSteps cfg } (platformSteps cfg)
            (stepList (platformSteps cfg))).1).currentJobId ≠ some j.id := by
          rw [(storeImage_shape _).cur]
          exact hc1
        have herw : (runGeneration cfg s BackendOutcome.ok nowEnd).1
            = (runOkTail cfg (storeImage (runCallbacksFrom
              { s with totalSteps := platformSteps cfg } (platformSteps cfg)
              (stepList (platformSteps cfg))).1) nowEnd).1 := rfl
        dsimp only [stepAct]
        rw [herw, runOkTail_lookup hc2, storeImage_lookup hc1,
          runCallbacksFrom_lookup _ _ _ hc0]
        exact Or.inl (lookup_eq_some_of_mem hnd hmem)
      | fail msg k =>
        have hsh := runCallbacksFrom_shape (platformSteps cfg)
          (stepList (min k (platformSteps cfg))) { s with totalSteps := platformSteps cfg }
        have hc1 : (runCallbacksFrom { s with totalSteps := platformSteps cfg }
            (platformSteps cfg) (stepList (min k (platformSteps cfg)))).1.currentJobId
            ≠ some j.id := by
          rw [hsh.cur]
          exact hcur
        have herw : (runGeneration cfg s (BackendOutcome.fail msg k) nowEnd).1
            = (runFailTail cfg (runCallbacksFrom
              { s with totalSteps := platformSteps cfg } (platformSteps cfg)
              (stepList (min k (platformSteps cfg)))).1 msg).1 := rfl
        dsimp only [stepAct]
        rw [herw, runFailTail_lookup hc1, runCallbacksFrom_lookup _ _ _ hc0]
        exact Or.inl (lookup_eq_some_of_mem hnd hmem)
    | reap now =>
      exact Or.inl (reap_lookup_terminal hnd hmem hterm)
  · intro t1 t2 h1 h2
    simp [getStatusJob, h1, h2]

/-- C2 witness: a completed non-current record survives a fresh start
unchanged, and its rendered status view is the same at two query times. -/
theorem C2_terminal_stability_witness :
    (lookupJob (stepAct ⟨false, false, false, false⟩
        { initState with jobs := [⟨"old", "p", 4, "local", JStatus.completed, 1, some 2,
          none, false, 4, 4, none, none⟩] }
        (Act.start "q" 4 "local" "new" 10)).jobs "old"
      = some ⟨"old", "p", 4, "local", JStatus.completed, 1, some 2, none, false, 4, 4,
          none, none⟩
      ∨ lookupJob (stepAct ⟨false, false, false, false⟩
        { initState with jobs := [⟨"old", "p", 4, "local", JStatus.completed, 1, some 2,
          none, false, 4, 4, none, none⟩] }
        (Act.start "q" 4 "local" "new" 10)).jobs "old" = none)
    ∧ getStatusJob ⟨"old", "p", 4, "local", JStatus.completed, 1, some 2, none, false,
        4, 4, none, none⟩ 5
      = getStatusJob ⟨"old", "p", 4, "local", JStatus.completed, 1, some 2, none, false,
        4, 4, none, none⟩ 99 := by
  have h := C2_terminal_stability_amended ⟨false, false, false, false⟩
    { initState with jobs := [⟨"old", "p", 4, "local", JStatus.completed, 1, some 2,
      none, false, 4, 4, none, none⟩] }
    (Act.start "q" 4 "local" "new" 10)
    ⟨"old", "p", 4, "local", JStatus.completed, 1, some 2, none, false, 4, 4, none, none⟩
    (by decide) (by decide) (by decide) (by decide)
    (show ("new" : String) ≠ "old" by decide)
  exact ⟨h.1, h.2 5 99 (by decide) (by decide)⟩

end ImageGenBattle
